import Mathlib

/-!
# GoutAnalysisAgent: the lab-report analyser and the knowledge lookup

A shallow embedding of `parseLabInput`, `determineStatus` and `analyzeGoutRisk`
(`gout_analyzer.go`) and of `searchKnowledge` (`medical_knowledge.go`).

Modelling conventions.
* A Go `string` is the list of its characters (`Str`); the inputs are taken to be valid
  UTF-8, so that byte-wise `strings.Contains` is containment of character lists.
* A `float64` is the rational number it denotes.  `strconv.ParseFloat` rounds a decimal
  numeral to the nearest `float64` (ties to even, subnormals included) and reports the
  range error of a numeral beyond the largest one; the comparisons of the code are then
  comparisons of rationals.
* `regexp` is a backtracking matcher with Go's leftmost-first preference order.
* A Go map is the list of its key-value pairs; the order in which a loop ranges over it
  is a parameter, any rearrangement of that list.
-/

namespace GoutAnalysis

/-- A Go string, as the list of its characters. -/
abbrev Str := List Char

/-! ## Library functions used by the analyser -/

/-- The Go predicate `unicode.IsSpace`, the characters `strings.TrimSpace` removes. -/
def isSpace (c : Char) : Bool :=
  c = '\t' || c = '\n' || c = '\x0b' || c = '\x0c' || c = '\r' || c = ' ' ||
  c = '\u0085' || c = '\u00a0' || c = '\u1680' ||
  (0x2000 ≤ c.toNat && c.toNat ≤ 0x200A) ||
  c = '\u2028' || c = '\u2029' || c = '\u202f' || c = '\u205f' || c = '\u3000'

/-- The Go function `strings.TrimSpace`: leading and trailing white space removed. -/
def TrimSpace (s : Str) : Str :=
  ((s.dropWhile isSpace).reverse.dropWhile isSpace).reverse

/-- The Go call `strings.Split(s, "\n")`: the pieces between line feeds, at least one. -/
def splitLines : Str → List Str
  | [] => [[]]
  | c :: cs =>
    if c = '\n' then [] :: splitLines cs
    else
      match splitLines cs with
      | l :: ls => (c :: l) :: ls
      | [] => [[c]]

/-- One character of `strings.ToLower`.  Go maps every cased letter; besides `A`-`Z` only
U+0130 and U+212A have an ASCII image, and no character is mapped to a CJK ideograph, so
the other non-ASCII letters (which Go maps to non-ASCII letters) are left as they are: the
containment tests against the keywords of `analyzeGoutRisk` cannot tell the difference. -/
def toLowerRune (c : Char) : Char :=
  if 'A'.toNat ≤ c.toNat ∧ c.toNat ≤ 'Z'.toNat then Char.ofNat (c.toNat + 32)
  else if c.toNat = 0x130 then 'i'
  else if c.toNat = 0x212A then 'k'
  else c

/-- The Go function `strings.ToLower`. -/
def ToLower (s : Str) : Str := s.map toLowerRune

/-- The Go function `strings.Contains`. -/
def Contains : Str → Str → Bool
  | [], sub => sub.isEmpty
  | c :: cs, sub => sub.isPrefixOf (c :: cs) || Contains cs sub

/-- Whether a character is an ASCII digit, the class `[0-9]`. -/
def isDigit (c : Char) : Bool := '0'.toNat ≤ c.toNat && c.toNat ≤ '9'.toNat

/-- The value of a string of ASCII digits. -/
def digitsVal (s : Str) : Nat := s.foldl (fun n c => 10 * n + (c.toNat - '0'.toNat)) 0

/-- Rounding of the quotient `N / D` to the nearest natural number, a tie going to the
even one (the IEEE 754 default rounding). -/
def roundHalfEven (N D : Nat) : Nat :=
  let m0 := N / D
  let rem := N % D
  if 2 * rem < D then m0
  else if D < 2 * rem then m0 + 1
  else if m0 % 2 = 0 then m0 else m0 + 1

/-- Bisection for the binary exponent: the greatest `t` with `lo ≤ t < hi` and
`2 ^ t ≤ x`, or `lo` when there is none. -/
def log2Search : Nat → Nat → Nat → Nat → Nat
  | 0, lo, _, _ => lo
  | fuel + 1, lo, hi, x =>
    if hi ≤ lo + 1 then lo
    else if 1 <<< ((lo + hi) / 2) ≤ x then log2Search fuel ((lo + hi) / 2) hi x
    else log2Search fuel lo ((lo + hi) / 2) x

/-- The `float64` nearest to `n / d`, as the rational it denotes, or `none` when the
rounded value is beyond the largest `float64` (Go's range error).  Everything is scaled
by `2 ^ 1074`, the inverse of the smallest subnormal: the scaled value is rounded to a
multiple of `2 ^ (t - 52)`, where `t` is its binary exponent and at least 52, so that
tiny values round to a subnormal or to 0 without any error, as in Go. -/
def roundFloat64 (n d : Nat) : Option ℚ :=
  let t := log2Search 12 52 2098 ((n <<< 1074) / d)
  let m := roundHalfEven (n <<< 1074) (d <<< (t - 52))
  if 1 <<< 2098 ≤ m <<< (t - 52) then none
  else some (mkRat ((m <<< (t - 52) : Nat) : Int) (1 <<< 1074))

/-- The Go function `strconv.ParseFloat(s, 64)` on the numerals the pattern of
`parseLabInput` captures (`[0-9]+\.?[0-9]*`): digits, then optionally a point and digits.
The result is the `float64` nearest to the numeral, `none` being the range error of a
numeral beyond the `float64` range; any other text is a syntax error (`none`). -/
def ParseFloat (s : Str) : Option ℚ :=
  let ip := s.takeWhile isDigit
  if ip.isEmpty then none
  else
    match s.dropWhile isDigit with
    | [] => roundFloat64 (digitsVal ip) 1
    | c :: fp =>
      if c = '.' ∧ fp.all isDigit then
        roundFloat64 (digitsVal (ip ++ fp)) (fp.foldl (fun d _ => 10 * d) 1)
      else none

/-! ## Regular expressions -/

/-- The fragment of Go regular expressions used by `parseLabInput`. Repetition is only
ever applied to a character class. -/
inductive Regex where
  | eps : Regex
  | cls (p : Char → Bool) : Regex
  | star (p : Char → Bool) (greedy : Bool) : Regex
  | seq (a b : Regex) : Regex
  | alt (a b : Regex) : Regex
  | group (i : Nat) (r : Regex) : Regex

/-- The capture groups: entry `i` is the text of group `i`, `""` when it took no part. -/
abbrev Caps := List Str

/-- Greedy `p*`: the longest run of `p` first, giving back one character at a time. -/
def starGreedy (p : Char → Bool) (k : Str → Option Caps) : Str → Option Caps
  | [] => k []
  | c :: cs =>
    if p c then
      match starGreedy p k cs with
      | some r => some r
      | none => k (c :: cs)
    else k (c :: cs)

/-- Lazy `p*?`: the shortest run of `p` first, taking one more character at a time. -/
def starLazy (p : Char → Bool) (k : Str → Option Caps) : Str → Option Caps
  | [] => k []
  | c :: cs =>
    match k (c :: cs) with
    | some r => some r
    | none => if p c then starLazy p k cs else none

/-- Backtracking match of `r` at the head of `s`, then the continuation `k` on what is
left; the first success in preference order. -/
def Regex.run : Regex → Str → Caps → (Str → Caps → Option Caps) → Option Caps
  | .eps, s, caps, k => k s caps
  | .cls p, s, caps, k =>
    match s with
    | [] => none
    | c :: cs => if p c then k cs caps else none
  | .star p true, s, caps, k => starGreedy p (fun t => k t caps) s
  | .star p false, s, caps, k => starLazy p (fun t => k t caps) s
  | .seq a b, s, caps, k => a.run s caps (fun t caps1 => b.run t caps1 k)
  | .alt a b, s, caps, k =>
    match a.run s caps k with
    | some r => some r
    | none => b.run s caps k
  | .group i r, s, caps, k =>
    r.run s caps (fun t caps1 => k t (caps1.set i (s.take (s.length - t.length))))

/-- The match of `r` starting at the earliest possible position of `s`. -/
def findFrom (r : Regex) (n : Nat) : Str → Option Caps
  | [] => r.run [] (List.replicate (n + 1) []) (fun _ caps => some caps)
  | c :: cs =>
    match r.run (c :: cs) (List.replicate (n + 1) [])
        (fun t caps => some (caps.set 0 ((c :: cs).take ((c :: cs).length - t.length)))) with
    | some caps => some caps
    | none => findFrom r n cs

/-- The Go method `(*Regexp).FindStringSubmatch` for a pattern with `n` groups: the whole
match and the `n` groups, or the empty slice when there is no match. -/
def FindStringSubmatch (r : Regex) (n : Nat) (s : Str) : List Str :=
  match findFrom r n s with
  | some caps => caps
  | none => []

/-- Greedy `p+`. -/
def Regex.plus (p : Char → Bool) : Regex := .seq (.cls p) (.star p true)

/-- Lazy `p+?`. -/
def Regex.plusLazy (p : Char → Bool) : Regex := .seq (.cls p) (.star p false)

/-- Greedy `r?`. -/
def Regex.opt (r : Regex) : Regex := .alt r .eps

/-- A single literal character. -/
def Regex.chr (c : Char) : Regex := .cls (fun x => x = c)

/-- The class `\s` of Go: `[\t\n\f\r ]`. -/
def reSpace (c : Char) : Bool := c = '\t' || c = '\n' || c = '\x0c' || c = '\r' || c = ' '

/-- The class `[a-zA-Z/μmol]`. -/
def reUnit (c : Char) : Bool :=
  ('a'.toNat ≤ c.toNat && c.toNat ≤ 'z'.toNat) || ('A'.toNat ≤ c.toNat && c.toNat ≤ 'Z'.toNat) ||
  c = '/' || c = 'μ' || c = 'm' || c = 'o' || c = 'l'

/-- The sub-pattern `[0-9]+\.?[0-9]*` of a numeral. -/
def reNumber : Regex :=
  .seq (Regex.plus isDigit) (.seq (Regex.opt (Regex.chr '.')) (.star isDigit true))

/-- The first alternative, a labelled range:
`参考范围?[：:]?\s*([<>]?)([0-9]+\.?[0-9]*)\s*[-~至]\s*([0-9]+\.?[0-9]*)`. -/
def reRange : Regex :=
  .seq (Regex.chr '参') (.seq (Regex.chr '考') (.seq (Regex.chr '范')
  (.seq (Regex.opt (Regex.chr '围'))
  (.seq (Regex.opt (.cls (fun c => c = '：' || c = ':')))
  (.seq (.star reSpace true)
  (.seq (.group 4 (Regex.opt (.cls (fun c => c = '<' || c = '>'))))
  (.seq (.group 5 reNumber)
  (.seq (.star reSpace true)
  (.seq (.cls (fun c => c = '-' || c = '~' || c = '至'))
  (.seq (.star reSpace true)
  (.group 6 reNumber)))))))))))

/-- The second alternative, a single bound: `[（(<]\s*([<>]?)([0-9]+\.?[0-9]*)\s*[）)>]?`. -/
def reBound : Regex :=
  .seq (.cls (fun c => c = '（' || c = '(' || c = '<'))
  (.seq (.star reSpace true)
  (.seq (.group 7 (Regex.opt (.cls (fun c => c = '<' || c = '>'))))
  (.seq (.group 8 reNumber)
  (.seq (.star reSpace true)
  (Regex.opt (.cls (fun c => c = '）' || c = ')' || c = '>')))))))

/-- The pattern compiled in `parseLabInput`:
`([^0-9]+?)\s*([0-9]+\.?[0-9]*)\s*([a-zA-Z/μmol]+).*?(?:` range `|` bound `)`. -/
def labRegex : Regex :=
  .seq (.group 1 (Regex.plusLazy (fun c => !isDigit c)))
  (.seq (.star reSpace true)
  (.seq (.group 2 reNumber)
  (.seq (.star reSpace true)
  (.seq (.group 3 (Regex.plus reUnit))
  (.seq (.star (fun c => c ≠ '\n') false)
  (.alt reRange reBound))))))

/-! ## The data model -/

/-- The status literal `"偏高"`. -/
def statusHigh : Str := "偏高".toList

/-- The status literal `"偏低"`. -/
def statusLow : Str := "偏低".toList

/-- The status literal `"正常"`. -/
def statusNormal : Str := "正常".toList

/-- The risk-level literal `"高风险"`. -/
def riskHigh : Str := "高风险".toList

/-- The risk-level literal `"中风险"`. -/
def riskMedium : Str := "中风险".toList

/-- The risk-level literal `"低风险"`. -/
def riskLow : Str := "低风险".toList

/-- The literal of line 177. -/
def adviceUrgent : Str := "尿酸水平显著升高，建议立即就医，考虑药物治疗".toList

/-- The literal of line 179. -/
def adviceDiet : Str := "尿酸水平偏高，建议调整饮食，限制高嘌呤食物摄入".toList

/-- The literal of line 209. -/
def summaryHigh : Str := "存在多项异常指标，强烈建议立即就医，需要专业医生制定治疗方案".toList

/-- The literal of line 213. -/
def summaryMedium : Str := "建议尽快就医，进行进一步检查和评估".toList

/-- The literal of line 217. -/
def summaryFollowUp : Str := "建议调整生活方式，定期复查".toList

/-- The literal of line 221. -/
def summaryDefault : Str := "各项指标基本正常，保持健康的生活方式".toList

/-- The Go struct `LabResult`. -/
structure LabResult where
  Parameter : Str
  Value : ℚ
  Unit : Str
  ReferenceMin : ℚ
  ReferenceMax : ℚ
  Status : Str
  deriving DecidableEq

/-- The Go struct `GoutAnalysisResult`. -/
structure GoutAnalysisResult where
  UricAcidLevel : Option LabResult
  InflammatoryMarkers : List LabResult
  KidneyFunction : List LabResult
  RiskLevel : Str
  Recommendations : List Str
  FollowUpNeeded : Bool
  deriving DecidableEq

/-! ## `determineStatus` and `parseLabInput` -/

/-- The Go method `determineStatus`. -/
def determineStatus (result : LabResult) : Str :=
  if result.ReferenceMax > 0 ∧ result.Value > result.ReferenceMax then statusHigh
  else if result.ReferenceMin > 0 ∧ result.Value < result.ReferenceMin then statusLow
  else statusNormal

/-- The reference-range branches of `parseLabInput` (lines 111-133): the bounds read from
the groups of a match, written into `result`. -/
def parseReference (matches_ : List Str) (result : LabResult) : LabResult :=
  if matches_.length ≥ 7 ∧ matches_.getD 5 [] ≠ [] ∧ matches_.getD 6 [] ≠ [] then
    match ParseFloat (matches_.getD 5 []), ParseFloat (matches_.getD 6 []) with
    | some min, some max => { result with ReferenceMin := min, ReferenceMax := max }
    | _, _ => result
  else if matches_.length ≥ 9 ∧ matches_.getD 8 [] ≠ [] then
    match ParseFloat (matches_.getD 8 []) with
    | some refValue =>
      let operator := matches_.getD 7 []
      if operator = "<".toList then { result with ReferenceMax := refValue, ReferenceMin := 0 }
      else if operator = ">".toList then
        { result with ReferenceMin := refValue, ReferenceMax := 999999 }
      else result
    | none => result
  else result

/-- The body of the loop of `parseLabInput` for one line: the measurement it appends, if
any. -/
def parseLine (line0 : Str) : Option LabResult :=
  let line := TrimSpace line0
  if line = [] then none
  else
    let matches_ := FindStringSubmatch labRegex 8 line
    if matches_.length ≥ 4 then
      let parameter := TrimSpace (matches_.getD 1 [])
      match ParseFloat (matches_.getD 2 []) with
      | none => none
      | some value =>
        let unit := TrimSpace (matches_.getD 3 [])
        let result : LabResult :=
          { Parameter := parameter, Value := value, Unit := unit,
            ReferenceMin := 0, ReferenceMax := 0, Status := [] }
        let result := parseReference matches_ result
        some { result with Status := determineStatus result }
    else none

/-- The Go method `parseLabInput`: the measurements of the lines, and the error, which is
always `nil`. -/
def parseLabInput (input : Str) : List LabResult × Option Str :=
  ((splitLines input).filterMap parseLine, none)

/-! ## `analyzeGoutRisk` -/

/-- The local variables of `analyzeGoutRisk` that its loop updates. -/
structure LoopState where
  analysis : GoutAnalysisResult
  uricAcidHigh : Bool
  inflammationPresent : Bool
  kidneyIssues : Bool
  deriving DecidableEq

/-- The condition of the uric-acid branch (line 172). -/
def isUricAcid (parameterLower : Str) : Bool :=
  Contains parameterLower "尿酸".toList || Contains parameterLower "uric".toList

/-- The condition of the inflammatory-marker branch (lines 185-187). -/
def isInflammatory (parameterLower : Str) : Bool :=
  Contains parameterLower "c反应蛋白".toList || Contains parameterLower "crp".toList ||
  Contains parameterLower "血沉".toList || Contains parameterLower "esr".toList ||
  Contains parameterLower "白细胞".toList || Contains parameterLower "wbc".toList

/-- The condition of the kidney-function branch (lines 195-197). -/
def isKidney (parameterLower : Str) : Bool :=
  Contains parameterLower "肌酐".toList || Contains parameterLower "creatinine".toList ||
  Contains parameterLower "尿素".toList || Contains parameterLower "urea".toList ||
  Contains parameterLower "肾小球".toList || Contains parameterLower "gfr".toList

/-- The uric-acid branch of the loop body (lines 172-182).  `&result` is the address of
the per-iteration variable (Go 1.22 loop semantics), so the pointer keeps this record. -/
def uricStep (st : LoopState) (result : LabResult) (parameterLower : Str) : LoopState :=
  if isUricAcid parameterLower then
    let st := { st with analysis := { st.analysis with UricAcidLevel := some result } }
    if result.Status = statusHigh then
      let st := { st with uricAcidHigh := true }
      if result.Value > 500 then
        { st with analysis := { st.analysis with Recommendations :=
            st.analysis.Recommendations ++ [adviceUrgent] } }
      else if result.Value > 450 then
        { st with analysis := { st.analysis with Recommendations :=
            st.analysis.Recommendations ++ [adviceDiet] } }
      else st
    else st
  else st

/-- The inflammatory-marker branch of the loop body (lines 185-192). -/
def inflammationStep (st : LoopState) (result : LabResult) (parameterLower : Str) :
    LoopState :=
  if isInflammatory parameterLower then
    let st := { st with analysis := { st.analysis with InflammatoryMarkers :=
      st.analysis.InflammatoryMarkers ++ [result] } }
    if result.Status = statusHigh then { st with inflammationPresent := true } else st
  else st

/-- The kidney-function branch of the loop body (lines 195-202). -/
def kidneyStep (st : LoopState) (result : LabResult) (parameterLower : Str) : LoopState :=
  if isKidney parameterLower then
    let st := { st with analysis := { st.analysis with KidneyFunction :=
      st.analysis.KidneyFunction ++ [result] } }
    if result.Status = statusHigh ∨
        (Contains parameterLower "gfr".toList = true ∧ result.Status = statusLow) then
      { st with kidneyIssues := true }
    else st
  else st

/-- One iteration of the loop of `analyzeGoutRisk` (lines 168-203). -/
def analyzeStep (st : LoopState) (result : LabResult) : LoopState :=
  let parameterLower := ToLower result.Parameter
  kidneyStep (inflammationStep (uricStep st result parameterLower) result parameterLower)
    result parameterLower

/-- The state before the loop (lines 157-165). -/
def initState : LoopState :=
  { analysis :=
      { UricAcidLevel := none, InflammatoryMarkers := [], KidneyFunction := [],
        RiskLevel := [], Recommendations := [], FollowUpNeeded := false },
    uricAcidHigh := false, inflammationPresent := false, kidneyIssues := false }

/-- The risk assessment after the loop (lines 206-222). -/
def assessRisk (st : LoopState) : GoutAnalysisResult :=
  if st.uricAcidHigh ∧ st.inflammationPresent ∧ st.kidneyIssues then
    { st.analysis with
      RiskLevel := riskHigh, FollowUpNeeded := true,
      Recommendations := st.analysis.Recommendations ++
        [summaryHigh] }
  else if st.uricAcidHigh ∧ (st.inflammationPresent ∨ st.kidneyIssues) then
    { st.analysis with
      RiskLevel := riskMedium, FollowUpNeeded := true,
      Recommendations := st.analysis.Recommendations ++
        [summaryMedium] }
  else if st.uricAcidHigh then
    { st.analysis with
      RiskLevel := riskLow, FollowUpNeeded := true,
      Recommendations := st.analysis.Recommendations ++ [summaryFollowUp] }
  else
    { st.analysis with
      RiskLevel := riskLow, FollowUpNeeded := false,
      Recommendations := st.analysis.Recommendations ++
        [summaryDefault] }

/-- The five general recommendations (lines 226-231). -/
def lifestyleAdvice : List Str :=
  ["建议低嘌呤饮食：避免内脏、海鲜、浓汤等高嘌呤食物".toList,
   "增加饮水量，每日至少2000ml".toList,
   "限制酒精摄入，特别是啤酒".toList,
   "适量运动，避免剧烈运动".toList,
   "控制体重，避免肥胖".toList]

/-- The three kidney recommendations (lines 235-238). -/
def kidneyAdvice : List Str :=
  ["注意保护肾功能，避免使用肾毒性药物".toList,
   "控制血压和血糖".toList,
   "定期监测肾功能指标".toList]

/-- The Go method `analyzeGoutRisk`. -/
def analyzeGoutRisk (results : List LabResult) : GoutAnalysisResult :=
  let st := results.foldl analyzeStep initState
  let analysis := assessRisk st
  let analysis :=
    if st.uricAcidHigh ∨ st.inflammationPresent then
      { analysis with Recommendations := analysis.Recommendations ++ lifestyleAdvice }
    else analysis
  if st.kidneyIssues then
    { analysis with Recommendations := analysis.Recommendations ++ kidneyAdvice }
  else analysis

/-- The analysis part of the Go method `Call`: `analyzeGoutRisk` on the measurements of
`parseLabInput`, whose error is always `nil`. -/
def analyzeText (input : Str) : GoutAnalysisResult :=
  analyzeGoutRisk (parseLabInput input).1

/-! ## The three flags of the decision table -/

/-- Some measurement of the uric-acid category has status 偏高. -/
def UricAcidHigh (ms : List LabResult) : Prop :=
  ∃ m ∈ ms, (Contains (ToLower m.Parameter) "尿酸".toList = true ∨
    Contains (ToLower m.Parameter) "uric".toList = true) ∧ m.Status = statusHigh

/-- Some measurement of the inflammatory-marker category has status 偏高. -/
def InflammationPresent (ms : List LabResult) : Prop :=
  ∃ m ∈ ms, (Contains (ToLower m.Parameter) "c反应蛋白".toList = true ∨
    Contains (ToLower m.Parameter) "crp".toList = true ∨
    Contains (ToLower m.Parameter) "血沉".toList = true ∨
    Contains (ToLower m.Parameter) "esr".toList = true ∨
    Contains (ToLower m.Parameter) "白细胞".toList = true ∨
    Contains (ToLower m.Parameter) "wbc".toList = true) ∧ m.Status = statusHigh

/-- The kidney flag as the loop sets it (line 199): some measurement of the
kidney-function category has status 偏高, or has status 偏低 and a lower-cased name
containing `gfr`. -/
def KidneyIssues (ms : List LabResult) : Prop :=
  ∃ m ∈ ms, (Contains (ToLower m.Parameter) "肌酐".toList = true ∨
    Contains (ToLower m.Parameter) "creatinine".toList = true ∨
    Contains (ToLower m.Parameter) "尿素".toList = true ∨
    Contains (ToLower m.Parameter) "urea".toList = true ∨
    Contains (ToLower m.Parameter) "肾小球".toList = true ∨
    Contains (ToLower m.Parameter) "gfr".toList = true) ∧
    (m.Status = statusHigh ∨
      (Contains (ToLower m.Parameter) "gfr".toList = true ∧ m.Status = statusLow))

instance (ms : List LabResult) : Decidable (UricAcidHigh ms) := by
  unfold UricAcidHigh; infer_instance

instance (ms : List LabResult) : Decidable (InflammationPresent ms) := by
  unfold InflammationPresent; infer_instance

instance (ms : List LabResult) : Decidable (KidneyIssues ms) := by
  unfold KidneyIssues; infer_instance

/-- The kidney flag as the specification words it: some measurement of the
kidney-function category is abnormal, that is, has status 偏高, or has status 偏低 and is
a glomerular filtration rate under either alias, 肾小球 or `gfr`. -/
def KidneyAbnormal (ms : List LabResult) : Prop :=
  ∃ m ∈ ms, (Contains (ToLower m.Parameter) "肌酐".toList = true ∨
    Contains (ToLower m.Parameter) "creatinine".toList = true ∨
    Contains (ToLower m.Parameter) "尿素".toList = true ∨
    Contains (ToLower m.Parameter) "urea".toList = true ∨
    Contains (ToLower m.Parameter) "肾小球".toList = true ∨
    Contains (ToLower m.Parameter) "gfr".toList = true) ∧
    (m.Status = statusHigh ∨
      ((Contains (ToLower m.Parameter) "肾小球".toList = true ∨
        Contains (ToLower m.Parameter) "gfr".toList = true) ∧ m.Status = statusLow))

instance (ms : List LabResult) : Decidable (KidneyAbnormal ms) := by
  unfold KidneyAbnormal; infer_instance

/-- The position of a risk level in the order 低风险 < 中风险 < 高风险. -/
def riskRank (level : Str) : Nat :=
  if level = riskHigh then 2 else if level = riskMedium then 1 else 0

/-- The uric-acid-specific recommendation one measurement contributes, if any. -/
def uricAdvice (m : LabResult) : Option Str :=
  if (Contains (ToLower m.Parameter) "尿酸".toList = true ∨
      Contains (ToLower m.Parameter) "uric".toList = true) ∧ m.Status = statusHigh then
    if m.Value > 500 then some adviceUrgent
    else if m.Value > 450 then some adviceDiet
    else none
  else none

/-- The summary recommendation of a row of the decision table. -/
def riskSummary (uric inflammation kidney : Bool) : Str :=
  if uric && inflammation && kidney then
    summaryHigh
  else if uric && (inflammation || kidney) then summaryMedium
  else if uric then summaryFollowUp
  else summaryDefault


/-! ## The line shapes of the specification -/

/-- A line `name value unit (参考范围: low-high)`. -/
def rangeLine (name value unit low high : Str) : Str :=
  name ++ " ".toList ++ value ++ " ".toList ++ unit ++ " (参考范围: ".toList ++ low ++
    "-".toList ++ high ++ ")".toList

/-- A line `name value unit (<X)`. -/
def boundLine (name value unit bound : Str) : Str :=
  name ++ " ".toList ++ value ++ " ".toList ++ unit ++ " (<".toList ++ bound ++ ")".toList

/-- The high-risk report `testData1` of `TestGoutAnalyzer` (`test.go`, lines 16-20). -/
def testData1 : Str :=
  ("尿酸 580 umol/L (参考范围: 208-428)\n" ++
   "C反应蛋白 25.6 mg/L (参考范围: <3.0)\n" ++
   "血沉 55 mm/h (参考范围: <15)\n" ++
   "肌酐 135 umol/L (参考范围: 54-106)\n" ++
   "白细胞 12.5 ×10⁹/L (参考范围: 4.0-10.0)").toList

/-- A line `name value unit (low-high)`, a range without its label. -/
def plainRangeLine (name value unit low high : Str) : Str :=
  name ++ " ".toList ++ value ++ " ".toList ++ unit ++ " (".toList ++ low ++ "-".toList ++
    high ++ ")".toList

/-- A line `name value unit (>X)`. -/
def lowerBoundLine (name value unit bound : Str) : Str :=
  name ++ " ".toList ++ value ++ " ".toList ++ unit ++ " (>".toList ++ bound ++ ")".toList

/-! ## The knowledge base (`medical_knowledge.go`) -/

/-- The Go struct `MedicalInfo`. -/
structure MedicalInfo where
  Topic : Str
  Definition : Str
  Symptoms : List Str
  Causes : List Str
  RiskFactors : List Str
  Diagnosis : List Str
  Treatment : List Str
  Prevention : List Str
  References : List Str
  deriving DecidableEq

/-- The record stored under the key `痛风` by `initializeKnowledge`. -/
def goutInfo : MedicalInfo :=
  { Topic := "痛风 (Gout)".toList,
    Definition :=
      "痛风是一种由于嘌呤代谢紊乱和/或尿酸排泄减少所致的高尿酸血症直接相关的代谢性疾病，以反复发作的急性关节炎、痛风石形成、慢性关节炎和关节畸形为特征。".toList,
    Symptoms :=
      ["急性关节疼痛，多在夜间突然发作".toList,
       "关节红肿热痛，触痛明显".toList,
       "常首发于第一跖趾关节（大脚趾）".toList,
       "可累及踝关节、膝关节、手指关节等".toList,
       "发热、寒战".toList,
       "疼痛呈刀割样、撕裂样".toList],
    Causes :=
      ["嘌呤代谢紊乱".toList,
       "尿酸生成过多".toList,
       "尿酸排泄减少".toList,
       "遗传因素".toList,
       "饮食因素（高嘌呤饮食）".toList,
       "肥胖".toList,
       "酒精摄入".toList],
    RiskFactors :=
      ["男性，40岁以上".toList,
       "绝经后女性".toList,
       "肥胖".toList,
       "高血压".toList,
       "糖尿病".toList,
       "肾功能不全".toList,
       "家族史".toList,
       "长期饮酒".toList,
       "高嘌呤饮食".toList],
    Diagnosis :=
      ["血尿酸>420μmol/L（男性）或>360μmol/L（女性）".toList,
       "关节滑液中发现尿酸盐结晶".toList,
       "急性关节炎典型临床表现".toList,
       "秋水仙碱治疗有效".toList,
       "影像学检查显示痛风石或骨质破坏".toList],
    Treatment :=
      ["急性期：秋水仙碱、NSAIDs、糖皮质激素".toList,
       "缓解期：别嘌醇、非布司他降尿酸治疗".toList,
       "目标：血尿酸<360μmol/L".toList,
       "有痛风石者：血尿酸<300μmol/L".toList,
       "急性期避免使用降尿酸药物".toList],
    Prevention :=
      ["低嘌呤饮食".toList,
       "控制体重".toList,
       "限制酒精摄入".toList,
       "多饮水（每日>2000ml）".toList,
       "避免剧烈运动".toList,
       "规律用药".toList,
       "定期监测血尿酸".toList],
    References := [] }

/-- The record stored under the key `高尿酸血症` by `initializeKnowledge`. -/
def hyperuricemiaInfo : MedicalInfo :=
  { Topic := "高尿酸血症 (Hyperuricemia)".toList,
    Definition :=
      "高尿酸血症是指在正常嘌呤饮食状态下，非同日两次空腹血尿酸水平男性>420μmol/L，女性>360μmol/L。".toList,
    Symptoms :=
      ["多数患者无明显症状".toList,
       "可能出现疲劳".toList,
       "关节不适".toList,
       "部分患者可发展为痛风".toList],
    Causes :=
      ["嘌呤合成过多".toList,
       "嘌呤摄入过多".toList,
       "尿酸排泄减少".toList,
       "遗传性酶缺陷".toList,
       "药物影响（利尿剂、阿司匹林等）".toList],
    RiskFactors :=
      ["遗传因素".toList,
       "高嘌呤饮食".toList,
       "肥胖".toList,
       "饮酒".toList,
       "肾功能减退".toList,
       "某些药物使用".toList],
    Diagnosis :=
      ["男性血尿酸>420μmol/L".toList,
       "女性血尿酸>360μmol/L".toList,
       "需排除继发性因素".toList],
    Treatment :=
      ["生活方式干预".toList,
       "必要时药物治疗".toList,
       "治疗目标：血尿酸<360μmol/L".toList,
       "有并发症时：<300μmol/L".toList],
    Prevention :=
      ["控制饮食".toList,
       "适量运动".toList,
       "控制体重".toList,
       "限制酒精".toList,
       "多饮水".toList],
    References := [] }

/-- The record stored under the key `尿酸` by `initializeKnowledge`. -/
def uricAcidInfo : MedicalInfo :=
  { Topic := "尿酸 (Uric Acid)".toList,
    Definition :=
      "尿酸是嘌呤代谢的最终产物，主要通过肾脏排泄。".toList,
    Symptoms := [],
    Causes := [],
    RiskFactors := [],
    Diagnosis := [],
    Treatment := [],
    Prevention := [],
    References :=
      ["正常参考值：".toList,
       "男性：208-428 μmol/L (3.5-7.2 mg/dL)".toList,
       "女性：155-357 μmol/L (2.6-6.0 mg/dL)".toList,
       "高尿酸血症诊断标准：".toList,
       "男性：>420 μmol/L (7.0 mg/dL)".toList,
       "女性：>360 μmol/L (6.0 mg/dL)".toList,
       "痛风治疗目标：".toList,
       "一般患者：<360 μmol/L (6.0 mg/dL)".toList,
       "有痛风石患者：<300 μmol/L (5.0 mg/dL)".toList] }

/-- The record stored under the key `炎症` by `initializeKnowledge`. -/
def inflammationInfo : MedicalInfo :=
  { Topic := "炎症指标 (Inflammatory Markers)".toList,
    Definition :=
      "炎症指标是反映机体炎症反应程度的实验室检查指标。".toList,
    Symptoms := [],
    Causes := [],
    RiskFactors := [],
    Diagnosis :=
      ["急性炎症：CRP显著升高".toList,
       "慢性炎症：轻度升高".toList,
       "感染性疾病：白细胞升高".toList,
       "痛风急性发作：CRP、ESR升高".toList],
    Treatment := [],
    Prevention := [],
    References :=
      ["C反应蛋白(CRP)：<3.0 mg/L".toList,
       "血沉(ESR)：男性<15mm/h，女性<20mm/h".toList,
       "白细胞计数(WBC)：4.0-10.0×10⁹/L".toList,
       "中性粒细胞百分比：50-70%".toList] }

/-- The record stored under the key `肾功能` by `initializeKnowledge`. -/
def kidneyFunctionInfo : MedicalInfo :=
  { Topic := "肾功能 (Kidney Function)".toList,
    Definition :=
      "肾功能是指肾脏清除代谢产物、维持水电解质平衡和酸碱平衡的能力。".toList,
    Symptoms := [],
    Causes := [],
    RiskFactors := [],
    Diagnosis :=
      ["慢性肾病：eGFR<60ml/min/1.73m²持续3个月".toList,
       "急性肾损伤：血肌酐升高>26.5μmol/L/48h".toList,
       "肾功能不全：eGFR<60ml/min/1.73m²".toList],
    Treatment :=
      ["保护肾功能".toList,
       "控制血压、血糖".toList,
       "避免肾毒性药物".toList,
       "适当蛋白质摄入限制".toList],
    Prevention := [],
    References :=
      ["血肌酐(Cr)：男性54-106μmol/L，女性44-97μmol/L".toList,
       "血尿素氮(BUN)：2.5-7.1mmol/L".toList,
       "估算肾小球滤过率(eGFR)：>90ml/min/1.73m²".toList,
       "尿酸清除率：6.2-17.2ml/min".toList] }

/-- The record stored under the key `关节炎` by `initializeKnowledge`. -/
def arthritisInfo : MedicalInfo :=
  { Topic := "痛风性关节炎 (Gouty Arthritis)".toList,
    Definition :=
      "痛风性关节炎是由于尿酸盐结晶沉积在关节滑膜、软骨和其他组织中引起的炎症性关节病。".toList,
    Symptoms :=
      ["急性发作：关节剧烈疼痛".toList,
       "红肿热痛".toList,
       "活动受限".toList,
       "多在夜间发作".toList,
       "单关节受累多见".toList],
    Causes := [],
    RiskFactors := [],
    Diagnosis :=
      ["典型临床表现".toList,
       "血尿酸升高".toList,
       "关节液尿酸盐结晶".toList,
       "秋水仙碱试验性治疗有效".toList,
       "影像学检查".toList],
    Treatment :=
      ["急性期抗炎治疗".toList,
       "秋水仙碱".toList,
       "NSAIDs".toList,
       "糖皮质激素".toList,
       "避免降尿酸治疗".toList],
    Prevention := [],
    References := [] }

/-- The record stored under the key `痛风石` by `initializeKnowledge`. -/
def tophiInfo : MedicalInfo :=
  { Topic := "痛风石 (Tophi)".toList,
    Definition :=
      "痛风石是尿酸盐结晶在软组织中的沉积物，是慢性痛风的特征性表现。".toList,
    Symptoms :=
      ["关节周围结节".toList,
       "皮下结节".toList,
       "可破溃流出白色物质".toList,
       "关节变形".toList,
       "功能障碍".toList],
    Causes := [],
    RiskFactors := [],
    Diagnosis := [],
    Treatment :=
      ["积极降尿酸治疗".toList,
       "目标血尿酸<300μmol/L".toList,
       "外科手术切除".toList,
       "物理治疗".toList],
    Prevention :=
      ["长期降尿酸治疗".toList,
       "定期监测".toList,
       "避免诱发因素".toList],
    References := [] }

/-- The table built by `initializeKnowledge`, as its key-record pairs in the order of the
assignments.  A Go map has no order of its own: see `searchKnowledge`. -/
def knowledge : List (Str × MedicalInfo) :=
  [("痛风".toList, goutInfo),
   ("高尿酸血症".toList, hyperuricemiaInfo),
   ("尿酸".toList, uricAcidInfo),
   ("炎症".toList, inflammationInfo),
   ("肾功能".toList, kidneyFunctionInfo),
   ("关节炎".toList, arthritisInfo),
   ("痛风石".toList, tophiInfo)]

/-- The condition of the loop of `searchKnowledge` (lines 91-92) for one key and its
record.  The topics of the table hold ASCII letters and CJK characters only, on which
`ToLower` is exactly the Go function. -/
def knowledgeMatch (query : Str) (key : Str) (info : MedicalInfo) : Bool :=
  Contains query key || Contains key query || Contains (ToLower info.Topic) query

/-- The Go method `searchKnowledge`.  The loop ranges over a Go map, whose iteration order
is not specified: `entries` is the table in the order of that iteration, any
rearrangement of `knowledge`. -/
def searchKnowledge (entries : List (Str × MedicalInfo)) (query : Str) : List MedicalInfo :=
  entries.filterMap (fun e => if knowledgeMatch query e.1 e.2 then some e.2 else none)

/-- The numeral of 1 followed by 309 zeros: a number beyond the largest `float64`. -/
def hugeNumeral : Str := '1' :: List.replicate 309 '0'

/-! ## The loop of `analyzeGoutRisk` -/

theorem uricStep_uricAcidHigh (st : LoopState) (m : LabResult) (p : Str) :
    (uricStep st m p).uricAcidHigh =
      (st.uricAcidHigh || (isUricAcid p && decide (m.Status = statusHigh))) := by
  unfold uricStep
  split_ifs <;> simp [*]

theorem uricStep_inflammationPresent (st : LoopState) (m : LabResult) (p : Str) :
    (uricStep st m p).inflammationPresent = st.inflammationPresent := by
  unfold uricStep
  split_ifs <;> rfl

theorem uricStep_kidneyIssues (st : LoopState) (m : LabResult) (p : Str) :
    (uricStep st m p).kidneyIssues = st.kidneyIssues := by
  unfold uricStep
  split_ifs <;> rfl

theorem uricStep_inflammatoryMarkers (st : LoopState) (m : LabResult) (p : Str) :
    (uricStep st m p).analysis.InflammatoryMarkers = st.analysis.InflammatoryMarkers := by
  unfold uricStep
  split_ifs <;> rfl

theorem uricStep_kidneyFunction (st : LoopState) (m : LabResult) (p : Str) :
    (uricStep st m p).analysis.KidneyFunction = st.analysis.KidneyFunction := by
  unfold uricStep
  split_ifs <;> rfl

theorem uricStep_recommendations (st : LoopState) (m : LabResult) :
    (uricStep st m (ToLower m.Parameter)).analysis.Recommendations =
      st.analysis.Recommendations ++ (uricAdvice m).toList := by
  unfold uricStep uricAdvice isUricAcid
  simp only [Bool.or_eq_true]
  split_ifs <;> simp_all

theorem inflammationStep_uricAcidHigh (st : LoopState) (m : LabResult) (p : Str) :
    (inflammationStep st m p).uricAcidHigh = st.uricAcidHigh := by
  unfold inflammationStep
  split_ifs <;> rfl

theorem inflammationStep_inflammationPresent (st : LoopState) (m : LabResult) (p : Str) :
    (inflammationStep st m p).inflammationPresent =
      (st.inflammationPresent || (isInflammatory p && decide (m.Status = statusHigh))) := by
  unfold inflammationStep
  split_ifs <;> simp [*]

theorem inflammationStep_kidneyIssues (st : LoopState) (m : LabResult) (p : Str) :
    (inflammationStep st m p).kidneyIssues = st.kidneyIssues := by
  unfold inflammationStep
  split_ifs <;> rfl

theorem inflammationStep_inflammatoryMarkers (st : LoopState) (m : LabResult) (p : Str) :
    (inflammationStep st m p).analysis.InflammatoryMarkers =
      st.analysis.InflammatoryMarkers ++ (if isInflammatory p then [m] else []) := by
  unfold inflammationStep
  split_ifs <;> simp

theorem inflammationStep_kidneyFunction (st : LoopState) (m : LabResult) (p : Str) :
    (inflammationStep st m p).analysis.KidneyFunction = st.analysis.KidneyFunction := by
  unfold inflammationStep
  split_ifs <;> rfl

theorem inflammationStep_recommendations (st : LoopState) (m : LabResult) (p : Str) :
    (inflammationStep st m p).analysis.Recommendations = st.analysis.Recommendations := by
  unfold inflammationStep
  split_ifs <;> rfl

theorem kidneyStep_uricAcidHigh (st : LoopState) (m : LabResult) (p : Str) :
    (kidneyStep st m p).uricAcidHigh = st.uricAcidHigh := by
  unfold kidneyStep
  split_ifs <;> rfl

theorem kidneyStep_inflammationPresent (st : LoopState) (m : LabResult) (p : Str) :
    (kidneyStep st m p).inflammationPresent = st.inflammationPresent := by
  unfold kidneyStep
  split_ifs <;> rfl

theorem kidneyStep_kidneyIssues (st : LoopState) (m : LabResult) (p : Str) :
    (kidneyStep st m p).kidneyIssues =
      (st.kidneyIssues || (isKidney p && (decide (m.Status = statusHigh) ||
        (Contains p "gfr".toList && decide (m.Status = statusLow))))) := by
  unfold kidneyStep
  split_ifs with h1 h2 <;> simp_all

theorem kidneyStep_inflammatoryMarkers (st : LoopState) (m : LabResult) (p : Str) :
    (kidneyStep st m p).analysis.InflammatoryMarkers = st.analysis.InflammatoryMarkers := by
  unfold kidneyStep
  split_ifs <;> rfl

theorem kidneyStep_kidneyFunction (st : LoopState) (m : LabResult) (p : Str) :
    (kidneyStep st m p).analysis.KidneyFunction =
      st.analysis.KidneyFunction ++ (if isKidney p then [m] else []) := by
  unfold kidneyStep
  split_ifs <;> simp

theorem kidneyStep_recommendations (st : LoopState) (m : LabResult) (p : Str) :
    (kidneyStep st m p).analysis.Recommendations = st.analysis.Recommendations := by
  unfold kidneyStep
  split_ifs <;> rfl

theorem analyzeStep_uricAcidHigh (st : LoopState) (m : LabResult) :
    (analyzeStep st m).uricAcidHigh =
      (st.uricAcidHigh || (isUricAcid (ToLower m.Parameter) &&
        decide (m.Status = statusHigh))) := by
  rw [analyzeStep, kidneyStep_uricAcidHigh, inflammationStep_uricAcidHigh,
    uricStep_uricAcidHigh]

theorem analyzeStep_inflammationPresent (st : LoopState) (m : LabResult) :
    (analyzeStep st m).inflammationPresent =
      (st.inflammationPresent || (isInflammatory (ToLower m.Parameter) &&
        decide (m.Status = statusHigh))) := by
  rw [analyzeStep, kidneyStep_inflammationPresent, inflammationStep_inflammationPresent,
    uricStep_inflammationPresent]

theorem analyzeStep_kidneyIssues (st : LoopState) (m : LabResult) :
    (analyzeStep st m).kidneyIssues =
      (st.kidneyIssues || (isKidney (ToLower m.Parameter) &&
        (decide (m.Status = statusHigh) ||
          (Contains (ToLower m.Parameter) "gfr".toList &&
            decide (m.Status = statusLow))))) := by
  rw [analyzeStep, kidneyStep_kidneyIssues, inflammationStep_kidneyIssues,
    uricStep_kidneyIssues]

theorem analyzeStep_inflammatoryMarkers (st : LoopState) (m : LabResult) :
    (analyzeStep st m).analysis.InflammatoryMarkers =
      st.analysis.InflammatoryMarkers ++
        (if isInflammatory (ToLower m.Parameter) then [m] else []) := by
  rw [analyzeStep, kidneyStep_inflammatoryMarkers, inflammationStep_inflammatoryMarkers,
    uricStep_inflammatoryMarkers]

theorem analyzeStep_kidneyFunction (st : LoopState) (m : LabResult) :
    (analyzeStep st m).analysis.KidneyFunction =
      st.analysis.KidneyFunction ++ (if isKidney (ToLower m.Parameter) then [m] else []) := by
  rw [analyzeStep, kidneyStep_kidneyFunction, inflammationStep_kidneyFunction,
    uricStep_kidneyFunction]

theorem analyzeStep_recommendations (st : LoopState) (m : LabResult) :
    (analyzeStep st m).analysis.Recommendations =
      st.analysis.Recommendations ++ (uricAdvice m).toList := by
  rw [analyzeStep, kidneyStep_recommendations, inflammationStep_recommendations,
    uricStep_recommendations]

theorem foldl_uricAcidHigh (ms : List LabResult) (st : LoopState) :
    (ms.foldl analyzeStep st).uricAcidHigh = true ↔
      st.uricAcidHigh = true ∨ UricAcidHigh ms := by
  induction ms generalizing st with
  | nil => simp [UricAcidHigh]
  | cons m ms ih =>
    rw [List.foldl_cons, ih, analyzeStep_uricAcidHigh]
    simp [UricAcidHigh, isUricAcid, or_assoc]

theorem foldl_inflammationPresent (ms : List LabResult) (st : LoopState) :
    (ms.foldl analyzeStep st).inflammationPresent = true ↔
      st.inflammationPresent = true ∨ InflammationPresent ms := by
  induction ms generalizing st with
  | nil => simp [InflammationPresent]
  | cons m ms ih =>
    rw [List.foldl_cons, ih, analyzeStep_inflammationPresent]
    simp [InflammationPresent, isInflammatory, or_assoc]

theorem foldl_kidneyIssues (ms : List LabResult) (st : LoopState) :
    (ms.foldl analyzeStep st).kidneyIssues = true ↔
      st.kidneyIssues = true ∨ KidneyIssues ms := by
  induction ms generalizing st with
  | nil => simp [KidneyIssues]
  | cons m ms ih =>
    rw [List.foldl_cons, ih, analyzeStep_kidneyIssues]
    simp [KidneyIssues, isKidney, or_assoc]

theorem foldl_inflammatoryMarkers (ms : List LabResult) (st : LoopState) :
    (ms.foldl analyzeStep st).analysis.InflammatoryMarkers =
      st.analysis.InflammatoryMarkers ++
        ms.filter (fun m => isInflammatory (ToLower m.Parameter)) := by
  induction ms generalizing st with
  | nil => simp
  | cons m ms ih =>
    rw [List.foldl_cons, ih, analyzeStep_inflammatoryMarkers, List.filter_cons]
    split_ifs <;> simp

theorem foldl_kidneyFunction (ms : List LabResult) (st : LoopState) :
    (ms.foldl analyzeStep st).analysis.KidneyFunction =
      st.analysis.KidneyFunction ++ ms.filter (fun m => isKidney (ToLower m.Parameter)) := by
  induction ms generalizing st with
  | nil => simp
  | cons m ms ih =>
    rw [List.foldl_cons, ih, analyzeStep_kidneyFunction, List.filter_cons]
    split_ifs <;> simp

theorem foldl_recommendations (ms : List LabResult) (st : LoopState) :
    (ms.foldl analyzeStep st).analysis.Recommendations =
      st.analysis.Recommendations ++ ms.filterMap uricAdvice := by
  induction ms generalizing st with
  | nil => simp
  | cons m ms ih =>
    rw [List.foldl_cons, ih, analyzeStep_recommendations, List.filterMap_cons]
    cases uricAdvice m <;> simp

theorem loop_uricAcidHigh (ms : List LabResult) :
    (ms.foldl analyzeStep initState).uricAcidHigh = true ↔ UricAcidHigh ms := by
  simp [foldl_uricAcidHigh, initState]

theorem loop_inflammationPresent (ms : List LabResult) :
    (ms.foldl analyzeStep initState).inflammationPresent = true ↔ InflammationPresent ms := by
  simp [foldl_inflammationPresent, initState]

theorem loop_kidneyIssues (ms : List LabResult) :
    (ms.foldl analyzeStep initState).kidneyIssues = true ↔ KidneyIssues ms := by
  simp [foldl_kidneyIssues, initState]

/-- The risk level and the follow-up flag in terms of the three flags of the loop. -/
theorem analyzeGoutRisk_riskLevel (ms : List LabResult) :
    (analyzeGoutRisk ms).RiskLevel =
        (if UricAcidHigh ms ∧ InflammationPresent ms ∧ KidneyIssues ms then riskHigh
         else if UricAcidHigh ms ∧ (InflammationPresent ms ∨ KidneyIssues ms) then
           riskMedium
         else riskLow) ∧
      ((analyzeGoutRisk ms).FollowUpNeeded = true ↔ UricAcidHigh ms) := by
  have hu := loop_uricAcidHigh ms
  have hi := loop_inflammationPresent ms
  have hk := loop_kidneyIssues ms
  simp only [analyzeGoutRisk, assessRisk, hu, hi, hk]
  split_ifs <;> simp_all

theorem analyzeGoutRisk_recommendations (ms : List LabResult) :
    (analyzeGoutRisk ms).Recommendations =
      ms.filterMap uricAdvice ++
        [riskSummary (decide (UricAcidHigh ms)) (decide (InflammationPresent ms))
          (decide (KidneyIssues ms))] ++
        (if UricAcidHigh ms ∨ InflammationPresent ms then lifestyleAdvice else []) ++
        (if KidneyIssues ms then kidneyAdvice else []) := by
  have hu := loop_uricAcidHigh ms
  have hi := loop_inflammationPresent ms
  have hk := loop_kidneyIssues ms
  have hr := foldl_recommendations ms initState
  simp only [analyzeGoutRisk, assessRisk, hu, hi, hk, riskSummary]
  split_ifs <;> simp_all [initState]

theorem riskLevel_cases (ms : List LabResult) :
    (analyzeGoutRisk ms).RiskLevel = riskHigh ∨ (analyzeGoutRisk ms).RiskLevel = riskMedium ∨
      (analyzeGoutRisk ms).RiskLevel = riskLow := by
  rw [(analyzeGoutRisk_riskLevel ms).1]
  split_ifs <;> simp

theorem UricAcidHigh_append (a b : List LabResult) :
    UricAcidHigh (a ++ b) ↔ UricAcidHigh a ∨ UricAcidHigh b := by
  simp only [UricAcidHigh, List.mem_append, or_and_right, exists_or]

theorem InflammationPresent_append (a b : List LabResult) :
    InflammationPresent (a ++ b) ↔ InflammationPresent a ∨ InflammationPresent b := by
  simp only [InflammationPresent, List.mem_append, or_and_right, exists_or]

theorem KidneyIssues_append (a b : List LabResult) :
    KidneyIssues (a ++ b) ↔ KidneyIssues a ∨ KidneyIssues b := by
  simp only [KidneyIssues, List.mem_append, or_and_right, exists_or]

theorem UricAcidHigh_cons (u : LabResult) (b : List LabResult) :
    UricAcidHigh (u :: b) ↔
      ((Contains (ToLower u.Parameter) "尿酸".toList = true ∨
        Contains (ToLower u.Parameter) "uric".toList = true) ∧ u.Status = statusHigh) ∨
      UricAcidHigh b := by
  simp only [UricAcidHigh, List.mem_cons, exists_eq_or_imp]

theorem InflammationPresent_cons_of (u : LabResult) (b : List LabResult)
    (h : InflammationPresent b) : InflammationPresent (u :: b) := by
  obtain ⟨m, hm, h⟩ := h
  exact ⟨m, List.mem_cons_of_mem _ hm, h⟩

theorem KidneyIssues_cons_of (u : LabResult) (b : List LabResult)
    (h : KidneyIssues b) : KidneyIssues (u :: b) := by
  obtain ⟨m, hm, h⟩ := h
  exact ⟨m, List.mem_cons_of_mem _ hm, h⟩

/-- Inserting a uric-acid measurement with status 偏高 (the category test on the
lower-cased name) never lowers the risk level. -/
theorem riskRank_insert_lower (a b : List LabResult) (u : LabResult)
    (hu : Contains (ToLower u.Parameter) "尿酸".toList = true ∨
      Contains (ToLower u.Parameter) "uric".toList = true)
    (hs : u.Status = statusHigh) :
    riskRank (analyzeGoutRisk (a ++ b)).RiskLevel ≤
      riskRank (analyzeGoutRisk (a ++ u :: b)).RiskLevel := by
  have hU : UricAcidHigh (a ++ u :: b) :=
    (UricAcidHigh_append a (u :: b)).2 (Or.inr ((UricAcidHigh_cons u b).2 (Or.inl ⟨hu, hs⟩)))
  have hI : InflammationPresent (a ++ b) → InflammationPresent (a ++ u :: b) := by
    rw [InflammationPresent_append, InflammationPresent_append]
    rintro (h | h)
    · exact Or.inl h
    · exact Or.inr (InflammationPresent_cons_of u b h)
  have hK : KidneyIssues (a ++ b) → KidneyIssues (a ++ u :: b) := by
    rw [KidneyIssues_append, KidneyIssues_append]
    rintro (h | h)
    · exact Or.inl h
    · exact Or.inr (KidneyIssues_cons_of u b h)
  rw [(analyzeGoutRisk_riskLevel (a ++ b)).1, (analyzeGoutRisk_riskLevel (a ++ u :: b)).1]
  have e2 : riskRank riskHigh = 2 := by decide
  have e1 : riskRank riskMedium = 1 := by decide
  have e0 : riskRank riskLow = 0 := by decide
  split_ifs <;> simp_all

/-- Lower-casing commutes with containment of a keyword that is already lower case. -/
theorem Contains_iff_sublist_run (s sub : Str) : Contains s sub = true ↔ sub <:+: s := by
  induction s with
  | nil => simp [Contains, List.isEmpty_iff]
  | cons c cs ih =>
    rw [Contains, Bool.or_eq_true, ih, List.isPrefixOf_iff_prefix, List.infix_cons_iff]

theorem Contains_ToLower (s sub : Str) (hsub : ToLower sub = sub)
    (h : Contains s sub = true) : Contains (ToLower s) sub = true := by
  rw [Contains_iff_sublist_run] at h ⊢
  have := List.IsInfix.map toLowerRune h
  rwa [← hsub]

/-! ## The risk classifier: decision table, monotonicity, recommendations -/

/-- The decision table over the three flags as the loop computes them; the kidney flag
is the test of line 199, where a status 偏低 counts only under a name containing `gfr`. -/
theorem risk_decision_table (ms : List LabResult) :
    ((analyzeGoutRisk ms).RiskLevel = riskHigh ↔
        UricAcidHigh ms ∧ InflammationPresent ms ∧ KidneyIssues ms) ∧
      ((analyzeGoutRisk ms).RiskLevel = riskMedium ↔
        UricAcidHigh ms ∧ ((InflammationPresent ms ∧ ¬ KidneyIssues ms) ∨
          (¬ InflammationPresent ms ∧ KidneyIssues ms))) ∧
      ((analyzeGoutRisk ms).RiskLevel = riskLow ↔
        ¬ (UricAcidHigh ms ∧ InflammationPresent ms ∧ KidneyIssues ms) ∧
        ¬ (UricAcidHigh ms ∧ ((InflammationPresent ms ∧ ¬ KidneyIssues ms) ∨
          (¬ InflammationPresent ms ∧ KidneyIssues ms)))) ∧
      ((analyzeGoutRisk ms).FollowUpNeeded = true ↔ UricAcidHigh ms) := by
  have h := analyzeGoutRisk_riskLevel ms
  have hm : riskMedium ≠ riskHigh := by decide
  have hl : riskLow ≠ riskHigh := by decide
  have hlm : riskLow ≠ riskMedium := by decide
  refine ⟨?_, ?_, ?_, h.2⟩ <;> rw [h.1] <;> split_ifs <;>
    simp_all [Ne.symm hm, Ne.symm hl, Ne.symm hlm] <;> tauto

/-- C8: monotonicity.  Inserting, at any position of a measurement sequence (between `a`
and `b`), a measurement whose name contains 尿酸 or uric and whose status is 偏高 gives a
risk level at least as high in the order 低风险 < 中风险 < 高风险. -/
theorem risk_monotone_insert_uric (a b : List LabResult) (u : LabResult)
    (hname : Contains u.Parameter "尿酸".toList = true ∨
      Contains u.Parameter "uric".toList = true)
    (hstatus : u.Status = statusHigh) :
    riskRank (analyzeGoutRisk (a ++ b)).RiskLevel ≤
      riskRank (analyzeGoutRisk (a ++ u :: b)).RiskLevel := by
  refine riskRank_insert_lower a b u ?_ hstatus
  rcases hname with h | h
  · exact Or.inl (Contains_ToLower _ _ (by decide) h)
  · exact Or.inr (Contains_ToLower _ _ (by decide) h)

/-- C8 at a concrete report: a high uric acid placed before a high creatinine. -/
theorem risk_monotone_insert_uric_witness :
    riskRank (analyzeGoutRisk ([] ++
        [{ Parameter := "肌酐".toList, Value := 135, Unit := "umol/L".toList,
           ReferenceMin := 54, ReferenceMax := 106, Status := statusHigh }])).RiskLevel ≤
      riskRank (analyzeGoutRisk ([] ++
        { Parameter := "尿酸".toList, Value := 520, Unit := "umol/L".toList,
          ReferenceMin := 208, ReferenceMax := 428, Status := statusHigh } ::
        [{ Parameter := "肌酐".toList, Value := 135, Unit := "umol/L".toList,
           ReferenceMin := 54, ReferenceMax := 106, Status := statusHigh }])).RiskLevel :=
  risk_monotone_insert_uric [] _ _ (Or.inl (by decide)) rfl

/-- C9 (counterexample): a report with two uric-acid measurements of 520, both 偏高, gets
the urgent-care text twice, not at most once. -/
theorem recommendations_two_uric :
    (analyzeGoutRisk
      [{ Parameter := "尿酸".toList, Value := 520, Unit := "umol/L".toList,
         ReferenceMin := 208, ReferenceMax := 428, Status := statusHigh },
       { Parameter := "尿酸".toList, Value := 520, Unit := "umol/L".toList,
         ReferenceMin := 208, ReferenceMax := 428, Status := statusHigh }]).Recommendations
      = [adviceUrgent, adviceUrgent, summaryFollowUp] ++ lifestyleAdvice := by
  decide

/-- C9 (amended): the recommendations are, in this order: for each uric-acid measurement
with status 偏高, in input order, the urgent-care text if its value exceeds 500, else the
dietary text if it exceeds 450; then the one summary of the decision-table row; then the
five lifestyle texts iff uric acid is high or inflammation is present; then the three
kidney texts iff there is a kidney issue.  A single uric acid of 300 in 208-428 gets the
default summary alone. -/
theorem recommendations_composition (ms : List LabResult) :
    (analyzeGoutRisk ms).Recommendations =
        ms.filterMap uricAdvice ++
          [riskSummary (decide (UricAcidHigh ms)) (decide (InflammationPresent ms))
            (decide (KidneyIssues ms))] ++
          (if UricAcidHigh ms ∨ InflammationPresent ms then lifestyleAdvice else []) ++
          (if KidneyIssues ms then kidneyAdvice else []) ∧
      (analyzeGoutRisk
        [{ Parameter := "尿酸".toList, Value := 300, Unit := "umol/L".toList,
           ReferenceMin := 208, ReferenceMax := 428,
           Status := determineStatus
             { Parameter := "尿酸".toList, Value := 300, Unit := "umol/L".toList,
               ReferenceMin := 208, ReferenceMax := 428, Status := [] } }]).Recommendations
        = [summaryDefault] :=
  ⟨analyzeGoutRisk_recommendations ms, by decide⟩

/-! ## The matcher -/

theorem run_seq (a b : Regex) (s : Str) (caps : Caps) (k : Str → Caps → Option Caps) :
    (Regex.seq a b).run s caps k = a.run s caps (fun t c => b.run t c k) := rfl

theorem run_group (i : Nat) (a : Regex) (s : Str) (caps : Caps)
    (k : Str → Caps → Option Caps) :
    (Regex.group i a).run s caps k =
      a.run s caps (fun t c => k t (c.set i (s.take (s.length - t.length)))) := rfl

theorem run_cls_cons (p : Char → Bool) (c : Char) (t : Str) (caps : Caps)
    (k : Str → Caps → Option Caps) :
    (Regex.cls p).run (c :: t) caps k = if p c then k t caps else none := rfl

theorem run_cls_nil (p : Char → Bool) (caps : Caps) (k : Str → Caps → Option Caps) :
    (Regex.cls p).run [] caps k = none := rfl

theorem run_eps (s : Str) (caps : Caps) (k : Str → Caps → Option Caps) :
    Regex.eps.run s caps k = k s caps := rfl

theorem run_star_greedy (p : Char → Bool) (s : Str) (caps : Caps)
    (k : Str → Caps → Option Caps) :
    (Regex.star p true).run s caps k = starGreedy p (fun t => k t caps) s := rfl

theorem run_star_lazy (p : Char → Bool) (s : Str) (caps : Caps)
    (k : Str → Caps → Option Caps) :
    (Regex.star p false).run s caps k = starLazy p (fun t => k t caps) s := rfl

theorem run_alt (a b : Regex) (s : Str) (caps : Caps) (k : Str → Caps → Option Caps) :
    (Regex.alt a b).run s caps k =
      match a.run s caps k with
      | some r => some r
      | none => b.run s caps k := rfl

/-- A greedy star takes the whole run of `p` when the rest of the pattern then succeeds. -/
theorem starGreedy_span (p : Char → Bool) (k : Str → Option Caps) (xs rest : Str) (r : Caps)
    (hxs : ∀ c ∈ xs, p c = true) (hrest : ∀ c ∈ rest.head?, p c = false)
    (hk : k rest = some r) : starGreedy p k (xs ++ rest) = some r := by
  induction xs with
  | nil =>
    cases rest with
    | nil => simpa [starGreedy] using hk
    | cons c t =>
      have hc : p c = false := hrest c (by simp)
      simp [starGreedy, hc, hk]
  | cons x xs ih =>
    have hx : p x = true := hxs x (by simp)
    have h := ih (fun c hc => hxs c (List.mem_cons_of_mem _ hc))
    simp [starGreedy, hx, h]

/-- A lazy star stops at the first position where the rest of the pattern succeeds. -/
theorem starLazy_first (p : Char → Bool) (k : Str → Option Caps) (xs rest : Str) (r : Caps)
    (hxs : ∀ c ∈ xs, p c = true)
    (hfail : ∀ a b, xs = a ++ b → b ≠ [] → k (b ++ rest) = none)
    (hk : k rest = some r) : starLazy p k (xs ++ rest) = some r := by
  induction xs with
  | nil =>
    cases rest with
    | nil => simpa [starLazy] using hk
    | cons c t => simp [starLazy, hk]
  | cons x xs ih =>
    have hx : p x = true := hxs x (by simp)
    have h0 : k (x :: (xs ++ rest)) = none := hfail [] (x :: xs) rfl (by simp)
    have h := ih (fun c hc => hxs c (List.mem_cons_of_mem _ hc))
      (fun a b hab hb => hfail (x :: a) b (by rw [hab]; rfl) hb)
    simp [starLazy, hx, h0, h]

/-- A greedy star fails when the rest of the pattern fails at every character of a block
that the star cannot cross. -/
theorem starGreedy_none (p : Char → Bool) (k : Str → Option Caps) (b tail : Str)
    (hb : b ≠ []) (hlast : ∀ c ∈ b.getLast?, p c = false)
    (hk : ∀ c ∈ b, ∀ t, k (c :: t) = none) : starGreedy p k (b ++ tail) = none := by
  induction b with
  | nil => exact absurd rfl hb
  | cons x b ih =>
    have hx : k (x :: (b ++ tail)) = none := hk x (by simp) _
    cases b with
    | nil =>
      have hpx : p x = false := hlast x (by simp)
      have hx2 : k (x :: tail) = none := hk x (by simp) _
      show starGreedy p k (x :: tail) = none
      rw [starGreedy]
      simp [hpx, hx2]
    | cons y b =>
      have h := ih (by simp) (fun c hc => hlast c (by simpa using hc))
        (fun c hc t => hk c (List.mem_cons_of_mem _ hc) t)
      show starGreedy p k (x :: (y :: b ++ tail)) = none
      rw [starGreedy, h]
      by_cases hpx : p x = true
      · simpa [hpx] using hk x (by simp) _
      · simpa [hpx] using hk x (by simp) _

/-- The texts `ParseFloat` reads: digits, then optionally a point and digits. -/
theorem parseFloat_shape {X : Str} {q : ℚ} (h : ParseFloat X = some q) :
    ∃ d ds, (∀ c ∈ d :: ds, isDigit c = true) ∧
      (X = d :: ds ∨ ∃ fp, X = d :: ds ++ '.' :: fp ∧ ∀ c ∈ fp, isDigit c = true) := by
  unfold ParseFloat at h
  have hsplit := List.takeWhile_append_dropWhile isDigit X
  have hall : ∀ c ∈ X.takeWhile isDigit, isDigit c = true :=
    fun c hc => (List.mem_takeWhile_imp hc)
  cases hip : X.takeWhile isDigit with
  | nil => simp [hip] at h
  | cons d ds =>
    rw [hip] at hall hsplit
    refine ⟨d, ds, hall, ?_⟩
    cases hdrop : X.dropWhile isDigit with
    | nil =>
      left
      rw [hdrop] at hsplit
      simpa using hsplit.symm
    | cons c fp =>
      rw [hdrop] at hsplit
      simp only [hip, hdrop] at h
      split_ifs at h with h1 hc
      right
      refine ⟨fp, ?_, ?_⟩
      · rw [← hsplit, hc.1]
      · simpa using hc.2

/-- The numeral sub-pattern takes a whole numeral when the rest of the pattern then
succeeds. -/
theorem run_reNumber (X rest : Str) (caps r : Caps) (k : Str → Caps → Option Caps) (q : ℚ)
    (hX : ParseFloat X = some q)
    (hrest : ∀ c ∈ rest.head?, isDigit c = false ∧ c ≠ '.')
    (hk : k rest caps = some r) : reNumber.run (X ++ rest) caps k = some r := by
  obtain ⟨d, ds, hd, hshape⟩ := parseFloat_shape hX
  have hd0 : isDigit d = true := hd d (by simp)
  have hds : ∀ c ∈ ds, isDigit c = true := fun c hc => hd c (List.mem_cons_of_mem _ hc)
  have hend : starGreedy isDigit (fun t => k t caps) rest = some r := by
    have := starGreedy_span isDigit (fun t => k t caps) [] rest r (by simp)
      (fun c hc => (hrest c hc).1) hk
    simpa using this
  rcases hshape with rfl | ⟨fp, rfl, hfp⟩
  · simp only [reNumber, Regex.plus, Regex.opt, Regex.chr, run_seq, List.cons_append,
      run_cls_cons, hd0, if_true, run_star_greedy]
    refine starGreedy_span isDigit _ ds rest r hds (fun c hc => (hrest c hc).1) ?_
    rw [run_alt]
    cases rest with
    | nil => simpa [run_cls_nil, run_eps, run_star_greedy] using hend
    | cons c t =>
      have hc : c ≠ '.' := (hrest c (by simp)).2
      simpa [run_cls_cons, hc, run_eps, run_star_greedy] using hend
  · simp only [reNumber, Regex.plus, Regex.opt, Regex.chr, run_seq, List.cons_append,
      List.append_assoc, run_cls_cons, hd0, if_true, run_star_greedy]
    refine starGreedy_span isDigit _ ds ('.' :: (fp ++ rest)) r hds ?_ ?_
    · intro c hc
      simp only [List.head?_cons, Option.mem_def, Option.some.injEq] at hc
      subst hc
      decide
    · have h2 := starGreedy_span isDigit (fun t => k t caps) fp rest r hfp
        (fun c hc => (hrest c hc).1) hk
      simp [run_alt, run_cls_cons, run_star_greedy, h2]

/-- A group around the numeral sub-pattern records the numeral. -/
theorem run_group_reNumber (i : Nat) (X rest : Str) (caps r : Caps)
    (k : Str → Caps → Option Caps) (q : ℚ) (hX : ParseFloat X = some q)
    (hrest : ∀ c ∈ rest.head?, isDigit c = false ∧ c ≠ '.')
    (hk : k rest (caps.set i X) = some r) :
    (Regex.group i reNumber).run (X ++ rest) caps k = some r := by
  rw [run_group]
  refine run_reNumber X rest caps r _ q hX hrest ?_
  simpa using hk

/-- The numeral sub-pattern fails on a text that does not start with a digit. -/
theorem run_group_reNumber_none (i : Nat) (c : Char) (t : Str) (caps : Caps)
    (k : Str → Caps → Option Caps) (hc : isDigit c = false) :
    (Regex.group i reNumber).run (c :: t) caps k = none := by
  simp [run_group, reNumber, Regex.plus, run_seq, run_cls_cons, hc]

theorem run_group_reNumber_nil (i : Nat) (caps : Caps) (k : Str → Caps → Option Caps) :
    (Regex.group i reNumber).run [] caps k = none := rfl

/-- A pattern fails when what follows it fails on every suffix of the text. -/
theorem starGreedy_none_of_suffix (p : Char → Bool) (k : Str → Option Caps) (s : Str)
    (hk : ∀ t, t <:+ s → k t = none) : starGreedy p k s = none := by
  induction s with
  | nil => simpa [starGreedy] using hk [] (List.suffix_refl _)
  | cons c cs ih =>
    have h1 := ih (fun t ht => hk t (ht.trans (List.suffix_cons c cs)))
    have h2 := hk (c :: cs) (List.suffix_refl _)
    rw [starGreedy, h1, h2]
    simp

theorem starLazy_none_of_suffix (p : Char → Bool) (k : Str → Option Caps) (s : Str)
    (hk : ∀ t, t <:+ s → k t = none) : starLazy p k s = none := by
  induction s with
  | nil => simpa [starLazy] using hk [] (List.suffix_refl _)
  | cons c cs ih =>
    have h1 := ih (fun t ht => hk t (ht.trans (List.suffix_cons c cs)))
    have h2 := hk (c :: cs) (List.suffix_refl _)
    rw [starLazy, h1, h2]
    simp

theorem run_none_of_suffix (a : Regex) (s : Str) (caps : Caps)
    (k : Str → Caps → Option Caps) (hk : ∀ t c, t <:+ s → k t c = none) :
    a.run s caps k = none := by
  induction a generalizing s caps k with
  | eps => exact hk s caps (List.suffix_refl _)
  | cls p =>
    cases s with
    | nil => rfl
    | cons c cs =>
      rw [run_cls_cons, hk cs caps (List.suffix_cons c cs)]
      simp
  | star p g =>
    cases g with
    | true => exact starGreedy_none_of_suffix p _ s (fun t ht => hk t caps ht)
    | false => exact starLazy_none_of_suffix p _ s (fun t ht => hk t caps ht)
  | seq a b iha ihb =>
    rw [run_seq]
    exact iha s caps _ (fun t c ht => ihb t c k (fun t2 c2 ht2 => hk t2 c2 (ht2.trans ht)))
  | alt a b iha ihb =>
    rw [run_alt, iha s caps k hk, ihb s caps k hk]
  | group i a iha =>
    rw [run_group]
    exact iha s caps _ (fun t c ht => hk t _ ht)

/-! ## Texts without a digit -/

theorem labRegex_run_none (s : Str) (caps : Caps) (k : Str → Caps → Option Caps)
    (h : ∀ c ∈ s, isDigit c = false) : labRegex.run s caps k = none := by
  unfold labRegex
  rw [run_seq]
  refine run_none_of_suffix _ s caps _ (fun t c ht => ?_)
  rw [run_seq]
  refine run_none_of_suffix _ t c _ (fun t2 c2 ht2 => ?_)
  rw [run_seq]
  cases t2 with
  | nil => exact run_group_reNumber_nil 2 c2 _
  | cons x t3 =>
    refine run_group_reNumber_none 2 x t3 c2 _ (h x ?_)
    exact (ht2.trans ht).subset (by simp)

theorem findFrom_none (s : Str) (h : ∀ c ∈ s, isDigit c = false) :
    findFrom labRegex 8 s = none := by
  induction s with
  | nil =>
    rw [findFrom]
    exact labRegex_run_none [] _ _ h
  | cons c cs ih =>
    rw [findFrom, labRegex_run_none (c :: cs) _ _ h]
    exact ih (fun x hx => h x (List.mem_cons_of_mem _ hx))

theorem mem_TrimSpace {c : Char} {s : Str} (h : c ∈ TrimSpace s) : c ∈ s := by
  unfold TrimSpace at h
  rw [List.mem_reverse] at h
  have h1 := (List.dropWhile_sublist isSpace).subset h
  rw [List.mem_reverse] at h1
  exact (List.dropWhile_sublist isSpace).subset h1

theorem parseLine_none (l : Str) (h : ∀ c ∈ l, isDigit c = false) : parseLine l = none := by
  have h2 : findFrom labRegex 8 (TrimSpace l) = none :=
    findFrom_none _ (fun c hc => h c (mem_TrimSpace hc))
  simp [parseLine, FindStringSubmatch, h2]

theorem mem_splitLines {s l : Str} (hl : l ∈ splitLines s) : ∀ c ∈ l, c ∈ s := by
  induction s generalizing l with
  | nil =>
    simp only [splitLines, List.mem_singleton] at hl
    subst hl
    simp
  | cons x xs ih =>
    rw [splitLines] at hl
    split_ifs at hl with hx
    · rcases List.mem_cons.1 hl with rfl | hl2
      · simp
      · exact fun c hc => List.mem_cons_of_mem _ (ih hl2 c hc)
    · cases hsp : splitLines xs with
      | nil =>
        rw [hsp] at hl
        simp only [List.mem_singleton] at hl
        subst hl
        simp
      | cons l0 ls =>
        rw [hsp] at hl
        rcases List.mem_cons.1 hl with rfl | hl2
        · intro c hc
          rcases List.mem_cons.1 hc with rfl | hc2
          · simp
          · exact List.mem_cons_of_mem _ (ih (by rw [hsp]; simp) c hc2)
        · exact fun c hc => List.mem_cons_of_mem _ (ih (by rw [hsp]; simp [hl2]) c hc)

theorem parseLabInput_no_digit (input : Str) (h : ∀ c ∈ input, isDigit c = false) :
    parseLabInput input = ([], none) := by
  unfold parseLabInput
  congr 1
  rw [List.filterMap_eq_nil_iff]
  intro l hl
  exact parseLine_none l (fun c hc => h c (mem_splitLines hl c hc))

/-! ## Lines of the documented shapes -/

theorem take_append_sub (a b : Str) : (a ++ b).take ((a ++ b).length - b.length) = a := by
  simp

theorem parseFloat_head {X : Str} {q : ℚ} (h : ParseFloat X = some q) :
    ∃ d t, X = d :: t ∧ isDigit d = true := by
  obtain ⟨d, ds, hd, hshape⟩ := parseFloat_shape h
  rcases hshape with rfl | ⟨fp, rfl, _⟩
  · exact ⟨d, ds, rfl, hd d (by simp)⟩
  · exact ⟨d, ds ++ '.' :: fp, rfl, hd d (by simp)⟩

theorem reSpace_not_digit {c : Char} (h : isDigit c = true) : reSpace c = false := by
  by_contra hc
  rw [Bool.not_eq_false] at hc
  simp only [reSpace, Bool.or_eq_true, decide_eq_true_eq] at hc
  rcases hc with (((rfl | rfl) | rfl) | rfl) | rfl <;> exact absurd h (by decide)

theorem reSpace_not_unit {c : Char} (h : reUnit c = true) : reSpace c = false := by
  by_contra hc
  rw [Bool.not_eq_false] at hc
  simp only [reSpace, Bool.or_eq_true, decide_eq_true_eq] at hc
  rcases hc with (((rfl | rfl) | rfl) | rfl) | rfl <;> exact absurd h (by decide)

/-- The spaces after the value and the unit: group 3 is the unit. -/
theorem run_unit (R : Regex) (u0 : Char) (us rest : Str) (caps r : Caps)
    (k : Str → Caps → Option Caps)
    (hunit : ∀ c ∈ u0 :: us, reUnit c = true)
    (hrest : ∀ c ∈ rest.head?, reUnit c = false)
    (hk : R.run rest (caps.set 3 (u0 :: us)) k = some r) :
    (Regex.seq (.star reSpace true) (.seq (.group 3 (Regex.plus reUnit)) R)).run
        (' ' :: (u0 :: us ++ rest)) caps k = some r := by
  have hu0 : reUnit u0 = true := hunit u0 (by simp)
  rw [run_seq, run_star_greedy]
  refine starGreedy_span reSpace _ [' '] (u0 :: us ++ rest) r (by simp [reSpace]) ?_ ?_
  · intro c hc
    simp only [List.cons_append, List.head?_cons, Option.mem_def, Option.some.injEq] at hc
    subst hc
    exact reSpace_not_unit hu0
  · rw [run_seq, run_group, Regex.plus, run_seq, List.cons_append, run_cls_cons]
    simp only [hu0, if_true]
    rw [run_star_greedy]
    refine starGreedy_span reUnit _ us rest r
      (fun c hc => hunit c (List.mem_cons_of_mem _ hc)) hrest ?_
    have e : (u0 :: (us ++ rest)).take ((u0 :: (us ++ rest)).length - rest.length)
        = u0 :: us := take_append_sub (u0 :: us) _
    rw [e]
    exact hk

theorem starLazy_skip (p : Char → Bool) (k : Str → Option Caps) (c : Char) (cs : Str)
    (hk : k (c :: cs) = none) (hp : p c = true) :
    starLazy p k (c :: cs) = starLazy p k cs := by
  rw [starLazy, hk]
  simp [hp]

theorem starLazy_stop (p : Char → Bool) (k : Str → Option Caps) (s : Str) (r : Caps)
    (hk : k s = some r) : starLazy p k s = some r := by
  have := starLazy_first p k [] s r (by simp) (by simp) hk
  simpa using this

theorem run_opt_take (a : Regex) (s : Str) (caps r : Caps) (k : Str → Caps → Option Caps)
    (h : a.run s caps k = some r) : (Regex.opt a).run s caps k = some r := by
  rw [Regex.opt, run_alt, h]

theorem run_opt_skip (a : Regex) (s : Str) (caps : Caps) (k : Str → Caps → Option Caps)
    (h : a.run s caps k = none) : (Regex.opt a).run s caps k = k s caps := by
  rw [Regex.opt, run_alt, h]
  rfl

theorem reRange_none_of_head (c : Char) (t : Str) (caps : Caps)
    (k : Str → Caps → Option Caps) (h : c ≠ '参') : reRange.run (c :: t) caps k = none := by
  rw [reRange, run_seq, Regex.chr, run_cls_cons]
  simp [h]

theorem reBound_none_of_head (c : Char) (t : Str) (caps : Caps)
    (k : Str → Caps → Option Caps) (h : c ≠ '（' ∧ c ≠ '(' ∧ c ≠ '<') :
    reBound.run (c :: t) caps k = none := by
  rw [reBound, run_seq, run_cls_cons]
  simp [h.1, h.2.1, h.2.2]

/-- After an opening parenthesis the bound alternative needs a digit (possibly after
spaces and a comparison sign). -/
theorem reBound_none_paren (c : Char) (t : Str) (caps : Caps)
    (k : Str → Caps → Option Caps)
    (h : reSpace c = false ∧ c ≠ '<' ∧ c ≠ '>' ∧ isDigit c = false) :
    reBound.run ('(' :: c :: t) caps k = none := by
  rw [reBound, run_seq, run_cls_cons]
  simp only [decide_True, Bool.or_true, Bool.true_or, if_true]
  rw [run_seq, run_star_greedy, starGreedy]
  simp only [h.1, Bool.false_eq_true, if_false]
  rw [run_seq, run_group, run_opt_skip]
  · rw [run_seq]
    exact run_group_reNumber_none 8 c t _ _ h.2.2.2
  · rw [run_cls_cons]
    simp [h.2.1, h.2.2.1]

theorem not_sign_of_digit {c : Char} (h : isDigit c = true) :
    (decide (c = '<') || decide (c = '>')) = false := by
  by_contra hc
  rw [Bool.not_eq_false] at hc
  simp only [Bool.or_eq_true, decide_eq_true_eq] at hc
  rcases hc with rfl | rfl <;> exact absurd h (by decide)

/-- The range alternative on `参考范围: low-high`: group 5 is `low`, group 6 is `high`. -/
theorem run_reRange (low high rest : Str) (caps r : Caps) (k : Str → Caps → Option Caps)
    (ql qh : ℚ) (hl : ParseFloat low = some ql) (hh : ParseFloat high = some qh)
    (hrest : ∀ c ∈ rest.head?, isDigit c = false ∧ c ≠ '.')
    (hk : k rest (((caps.set 4 []).set 5 low).set 6 high) = some r) :
    reRange.run ('参' :: '考' :: '范' :: '围' :: ':' :: ' ' :: (low ++ '-' :: (high ++ rest)))
      caps k = some r := by
  obtain ⟨d, t, hld, hd⟩ := parseFloat_head hl
  obtain ⟨d2, t2, hhd, hd2⟩ := parseFloat_head hh
  unfold reRange
  simp only [Regex.chr]
  rw [run_seq, run_cls_cons, if_pos (by decide)]
  rw [run_seq, run_cls_cons, if_pos (by decide)]
  rw [run_seq, run_cls_cons, if_pos (by decide)]
  rw [run_seq]
  refine run_opt_take _ _ _ _ _ ?_
  rw [run_cls_cons, if_pos (by decide), run_seq]
  refine run_opt_take _ _ _ _ _ ?_
  rw [run_cls_cons, if_pos (by decide), run_seq, run_star_greedy]
  refine starGreedy_span reSpace _ [' '] (low ++ '-' :: (high ++ rest)) r
    (by simp [reSpace]) ?_ ?_
  · intro c hc
    rw [hld] at hc
    simp only [List.cons_append, List.head?_cons, Option.mem_def, Option.some.injEq] at hc
    subst hc
    exact reSpace_not_digit hd
  rw [run_seq, run_group, run_opt_skip]
  swap
  · rw [hld, List.cons_append, run_cls_cons, if_neg]
    rw [not_sign_of_digit hd]
    exact Bool.false_ne_true
  simp only [Nat.sub_self, List.take_zero]
  rw [run_seq]
  refine run_group_reNumber 5 low ('-' :: (high ++ rest)) _ r _ ql hl ?_ ?_
  · intro c hc
    simp only [List.head?_cons, Option.mem_def, Option.some.injEq] at hc
    subst hc
    decide
  rw [run_seq, run_star_greedy, starGreedy, if_neg (by decide)]
  rw [run_seq, run_cls_cons, if_pos (by decide), run_seq, run_star_greedy]
  refine starGreedy_span reSpace _ [] (high ++ rest) r (by simp) ?_ ?_
  · intro c hc
    rw [hhd] at hc
    simp only [List.cons_append, List.head?_cons, Option.mem_def, Option.some.injEq] at hc
    subst hc
    exact reSpace_not_digit hd2
  exact run_group_reNumber 6 high rest _ r _ qh hh hrest hk

/-- The bound alternative on `(<X)`: group 7 is `<`, group 8 is `X`. -/
theorem run_reBound_lt (X rest : Str) (caps r : Caps) (k : Str → Caps → Option Caps)
    (qx : ℚ) (hx : ParseFloat X = some qx)
    (hk : k rest ((caps.set 7 ['<']).set 8 X) = some r) :
    reBound.run ('(' :: '<' :: (X ++ ')' :: rest)) caps k = some r := by
  unfold reBound
  rw [run_seq, run_cls_cons, if_pos (by decide)]
  rw [run_seq, run_star_greedy, starGreedy, if_neg (by decide)]
  rw [run_seq, run_group]
  refine run_opt_take _ _ _ _ _ ?_
  rw [run_cls_cons, if_pos (by decide)]
  have e : ('<' :: (X ++ ')' :: rest)).take
      (('<' :: (X ++ ')' :: rest)).length - (X ++ ')' :: rest).length) = ['<'] :=
    take_append_sub ['<'] _
  simp only [e]
  rw [run_seq]
  refine run_group_reNumber 8 X (')' :: rest) _ r _ qx hx ?_ ?_
  · intro c hc
    simp only [List.head?_cons, Option.mem_def, Option.some.injEq] at hc
    subst hc
    decide
  rw [run_seq, run_star_greedy, starGreedy, if_neg (by decide)]
  refine run_opt_take _ _ _ _ _ ?_
  rw [run_cls_cons, if_pos (by decide)]
  exact hk

theorem rangeLine_eq (name value unit low high : Str) :
    rangeLine name value unit low high =
      name ++ ' ' :: (value ++ ' ' :: (unit ++ ' ' :: '(' :: '参' :: '考' :: '范' :: '围' ::
        ':' :: ' ' :: (low ++ '-' :: (high ++ [')'])))) := by
  simp [rangeLine]

theorem boundLine_eq (name value unit bound : Str) :
    boundLine name value unit bound =
      name ++ ' ' :: (value ++ ' ' :: (unit ++ ' ' :: '(' :: '<' :: (bound ++ [')']))) := by
  simp [boundLine]

theorem run_alt_left (a b : Regex) (s : Str) (caps r : Caps) (k : Str → Caps → Option Caps)
    (h : a.run s caps k = some r) : (Regex.alt a b).run s caps k = some r := by
  rw [run_alt, h]

theorem run_alt_right (a b : Regex) (s : Str) (caps : Caps) (k : Str → Caps → Option Caps)
    (h : a.run s caps k = none) : (Regex.alt a b).run s caps k = b.run s caps k := by
  rw [run_alt, h]

/-- What follows the unit in `labRegex`, on ` (参考范围: low-high)`. -/
theorem run_tail_range (low high rest : Str) (caps r : Caps) (k : Str → Caps → Option Caps)
    (ql qh : ℚ) (hl : ParseFloat low = some ql) (hh : ParseFloat high = some qh)
    (hrest : ∀ c ∈ rest.head?, isDigit c = false ∧ c ≠ '.')
    (hk : k rest (((caps.set 4 []).set 5 low).set 6 high) = some r) :
    (Regex.seq (.star (fun c => c ≠ '\n') false) (.alt reRange reBound)).run
      (' ' :: '(' :: '参' :: '考' :: '范' :: '围' :: ':' :: ' ' ::
        (low ++ '-' :: (high ++ rest))) caps k = some r := by
  rw [run_seq, run_star_lazy, starLazy_skip, starLazy_skip]
  · refine starLazy_stop _ _ _ r ?_
    exact run_alt_left _ _ _ _ _ _ (run_reRange low high rest caps r k ql qh hl hh hrest hk)
  · rw [run_alt_right _ _ _ _ _ (reRange_none_of_head _ _ _ _ (by decide))]
    exact reBound_none_paren _ _ _ _ (by decide)
  · decide
  · rw [run_alt_right _ _ _ _ _ (reRange_none_of_head _ _ _ _ (by decide))]
    exact reBound_none_of_head _ _ _ _ (by decide)
  · decide

/-- What follows the unit in `labRegex`, on ` (<X)`. -/
theorem run_tail_bound (X rest : Str) (caps r : Caps) (k : Str → Caps → Option Caps)
    (qx : ℚ) (hx : ParseFloat X = some qx)
    (hk : k rest ((caps.set 7 ['<']).set 8 X) = some r) :
    (Regex.seq (.star (fun c => c ≠ '\n') false) (.alt reRange reBound)).run
      (' ' :: '(' :: '<' :: (X ++ ')' :: rest)) caps k = some r := by
  rw [run_seq, run_star_lazy, starLazy_skip]
  · refine starLazy_stop _ _ _ r ?_
    rw [run_alt_right _ _ _ _ _ (reRange_none_of_head _ _ _ _ (by decide))]
    exact run_reBound_lt X rest caps r k qx hx hk
  · rw [run_alt_right _ _ _ _ _ (reRange_none_of_head _ _ _ _ (by decide))]
    exact reBound_none_of_head _ _ _ _ (by decide)
  · decide

/-! ## `parseLabInput` on one line -/

theorem TrimSpace_eq_self (s : Str) (hhead : ∀ c ∈ s.head?, isSpace c = false)
    (hlast : ∀ c ∈ s.getLast?, isSpace c = false) : TrimSpace s = s := by
  have h1 : s.dropWhile isSpace = s := by
    cases s with
    | nil => rfl
    | cons c t =>
      have hc : isSpace c = false := hhead c (by simp)
      simp [List.dropWhile_cons, hc]
  have h2 : s.reverse.dropWhile isSpace = s.reverse := by
    cases hr : s.reverse with
    | nil => rfl
    | cons c t =>
      have hc : isSpace c = false := by
        refine hlast c ?_
        rw [← List.head?_reverse, hr]
        simp
      simp [List.dropWhile_cons, hc]
  rw [TrimSpace, h1, h2, List.reverse_reverse]

theorem isSpace_of_reSpace {c : Char} (h : reSpace c = true) : isSpace c = true := by
  simp only [reSpace, Bool.or_eq_true, decide_eq_true_eq] at h
  rcases h with (((rfl | rfl) | rfl) | rfl) | rfl <;> decide

theorem not_reSpace_of_not_isSpace {c : Char} (h : isSpace c = false) : reSpace c = false := by
  by_contra hc
  rw [Bool.not_eq_false] at hc
  rw [isSpace_of_reSpace hc] at h
  exact absurd h (by decide)

theorem reUnit_toNat {c : Char} (h : reUnit c = true) :
    (65 ≤ c.toNat ∧ c.toNat ≤ 122) ∨ c = '/' ∨ c = 'μ' := by
  simp only [reUnit, Bool.or_eq_true, Bool.and_eq_true, decide_eq_true_eq] at h
  have ha : 'a'.toNat = 97 := by decide
  have hz : 'z'.toNat = 122 := by decide
  have hA : 'A'.toNat = 65 := by decide
  have hZ : 'Z'.toNat = 90 := by decide
  rw [ha, hz, hA, hZ] at h
  rcases h with (((((h | h) | h) | h) | h) | h) | h
  · exact Or.inl ⟨by omega, h.2⟩
  · exact Or.inl ⟨h.1, by omega⟩
  · exact Or.inr (Or.inl h)
  · exact Or.inr (Or.inr h)
  · subst h
    exact Or.inl (by decide)
  · subst h
    exact Or.inl (by decide)
  · subst h
    exact Or.inl (by decide)

theorem not_isSpace_of_reUnit {c : Char} (h : reUnit c = true) : isSpace c = false := by
  by_contra hc
  rw [Bool.not_eq_false] at hc
  have hu := reUnit_toNat h
  simp only [isSpace, Bool.or_eq_true, Bool.and_eq_true, decide_eq_true_eq] at hc
  rcases hu with hu | rfl | rfl
  · rcases hc with (((((((((((((hc | hc) | hc) | hc) | hc) | hc) | hc) | hc) | hc) | hc) |
      hc) | hc) | hc) | hc) | hc
    all_goals first
      | (subst hc; revert hu; decide)
      | omega
  · revert hc; decide
  · revert hc; decide

theorem not_newline_of_reUnit {c : Char} (h : reUnit c = true) : c ≠ '\n' := by
  rintro rfl
  exact absurd h (by decide)

theorem not_newline_of_isDigit {c : Char} (h : isDigit c = true) : c ≠ '\n' := by
  rintro rfl
  exact absurd h (by decide)

theorem not_newline_of_parseFloat {X : Str} {q : ℚ} (h : ParseFloat X = some q) :
    ∀ c ∈ X, c ≠ '\n' := by
  obtain ⟨d, ds, hd, hshape⟩ := parseFloat_shape h
  rcases hshape with rfl | ⟨fp, rfl, hfp⟩
  · exact fun c hc => not_newline_of_isDigit (hd c hc)
  · intro c hc
    rcases List.mem_append.1 hc with hc | hc
    · exact not_newline_of_isDigit (hd c hc)
    · rcases List.mem_cons.1 hc with rfl | hc
      · decide
      · exact not_newline_of_isDigit (hfp c hc)

theorem splitLines_single (s : Str) (h : ∀ c ∈ s, c ≠ '\n') : splitLines s = [s] := by
  induction s with
  | nil => rfl
  | cons c cs ih =>
    have hc : c ≠ '\n' := h c (by simp)
    rw [splitLines, if_neg hc, ih (fun x hx => h x (List.mem_cons_of_mem _ hx))]

theorem ne_nil_of_parseFloat {X : Str} {q : ℚ} (h : ParseFloat X = some q) : X ≠ [] := by
  obtain ⟨d, t, rfl, _⟩ := parseFloat_head h
  simp

theorem TrimSpace_unit (unit : Str) (hunit : ∀ c ∈ unit, reUnit c = true) :
    TrimSpace unit = unit :=
  TrimSpace_eq_self unit
    (fun c hc => not_isSpace_of_reUnit (hunit c (List.mem_of_mem_head? hc)))
    (fun c hc => not_isSpace_of_reUnit (hunit c (List.mem_of_mem_getLast? hc)))

/-! ## The measurement extractor: line shapes, the documented example, fall-back -/

theorem no_newline_rangeLine (name value unit low high : Str) (v lo hi : ℚ)
    (hnl : ∀ c ∈ name, c ≠ '\n') (hv : ParseFloat value = some v)
    (hunitc : ∀ c ∈ unit, reUnit c = true)
    (hl : ParseFloat low = some lo) (hh : ParseFloat high = some hi) :
    ∀ c ∈ rangeLine name value unit low high, c ≠ '\n' := by
  intro c hc
  simp only [rangeLine, List.mem_append] at hc
  have e : ∀ x ∈ " (参考范围: ".toList, x ≠ '\n' := by decide
  rcases hc with ((((((((hc | hc) | hc) | hc) | hc) | hc) | hc) | hc) | hc) | hc
  · exact hnl c hc
  · revert c; decide
  · exact not_newline_of_parseFloat hv c hc
  · revert c; decide
  · exact not_newline_of_reUnit (hunitc c hc)
  · exact e c hc
  · exact not_newline_of_parseFloat hl c hc
  · revert c; decide
  · exact not_newline_of_parseFloat hh c hc
  · revert c; decide

theorem no_newline_boundLine (name value unit bound : Str) (v x : ℚ)
    (hnl : ∀ c ∈ name, c ≠ '\n') (hv : ParseFloat value = some v)
    (hunitc : ∀ c ∈ unit, reUnit c = true) (hx : ParseFloat bound = some x) :
    ∀ c ∈ boundLine name value unit bound, c ≠ '\n' := by
  intro c hc
  simp only [boundLine, List.mem_append] at hc
  rcases hc with ((((((hc | hc) | hc) | hc) | hc) | hc) | hc) | hc
  · exact hnl c hc
  · revert c; decide
  · exact not_newline_of_parseFloat hv c hc
  · revert c; decide
  · exact not_newline_of_reUnit (hunitc c hc)
  · revert c; decide
  · exact not_newline_of_parseFloat hx c hc
  · revert c; decide

/-- C4: the line the tool's description documents for an upper bound,
`C反应蛋白 15.2 mg/L (参考范围: <3.0)`, is parsed with both reference bounds 0 and the
status 正常: the `<` is consumed as the opening bracket of the bound alternative and the
comparison group stays empty. -/
theorem parseLabInput_description_example :
    parseLabInput "C反应蛋白 15.2 mg/L (参考范围: <3.0)".toList =
      ([{ Parameter := "C反应蛋白".toList, Value := mkRat 8556839292003942 562949953421312,
          Unit := "mg/L".toList,
          ReferenceMin := 0, ReferenceMax := 0, Status := statusNormal }], none) ∧
      FindStringSubmatch labRegex 8 "C反应蛋白 15.2 mg/L (参考范围: <3.0)".toList =
        ["C反应蛋白 15.2 mg/L (参考范围: <3.0)".toList, "C反应蛋白".toList, "15.2".toList,
          "mg/L".toList, [], [], [], [], "3.0".toList] := by
  decide

/-- C5: the high-risk report `testData1` of the tests is classified 中风险: its two
inflammatory markers with a `(参考范围: <X)` bound get the status 正常 and the white-cell
line is not recognised, so that only uric acid and creatinine are 偏高. -/
theorem analyzeText_testData1 :
    (analyzeText testData1).RiskLevel = riskMedium ∧
      (parseLabInput testData1).1.map (fun r => (r.Parameter, r.ReferenceMax, r.Status)) =
        [("尿酸".toList, 428, statusHigh), ("C反应蛋白".toList, 0, statusNormal),
         ("血沉".toList, 0, statusNormal), ("肌酐".toList, 106, statusHigh)] := by
  decide

theorem parseLine_unrecognised (l : Str)
    (h : FindStringSubmatch labRegex 8 (TrimSpace l) = []) : parseLine l = none := by
  simp [parseLine, h]

/-- C7: `parseLabInput` never reports an error; a text none of whose lines is recognised,
in particular a text without any ASCII digit such as `invalid data`, gives no measurement;
and the analysis of no measurement is the default result: no uric acid, no markers,
低风险, no follow-up, and the single default recommendation. -/
theorem parseLabInput_fallback :
    (∀ input, (parseLabInput input).2 = none) ∧
      (∀ input, (∀ l ∈ splitLines input, FindStringSubmatch labRegex 8 (TrimSpace l) = []) →
        parseLabInput input = ([], none)) ∧
      (∀ input, (∀ c ∈ input, isDigit c = false) → parseLabInput input = ([], none)) ∧
      analyzeGoutRisk [] =
        { UricAcidLevel := none, InflammatoryMarkers := [], KidneyFunction := [],
          RiskLevel := riskLow, Recommendations := [summaryDefault],
          FollowUpNeeded := false } := by
  refine ⟨fun _ => rfl, ?_, parseLabInput_no_digit, by decide⟩
  intro input h
  unfold parseLabInput
  congr 1
  rw [List.filterMap_eq_nil_iff]
  exact fun l hl => parseLine_unrecognised l (h l hl)

/-- C7 at the malformed inputs of the tests. -/
theorem parseLabInput_fallback_witness :
    parseLabInput "invalid data".toList = ([], none) ∧
      parseLabInput "无效的化验单数据".toList = ([], none) :=
  ⟨parseLabInput_fallback.2.2.1 _ (by decide), parseLabInput_fallback.2.2.1 _ (by decide)⟩

/-! ## The knowledge lookup -/

theorem mem_searchKnowledge (entries : List (Str × MedicalInfo)) (query : Str)
    (info : MedicalInfo) :
    info ∈ searchKnowledge entries query ↔
      ∃ key, (key, info) ∈ entries ∧ knowledgeMatch query key info = true := by
  simp only [searchKnowledge, List.mem_filterMap]
  constructor
  · rintro ⟨⟨key, info2⟩, hmem, h⟩
    by_cases hm : knowledgeMatch query key info2 = true
    · simp only [hm, if_true, Option.some.injEq] at h
      subst h
      exact ⟨key, hmem, hm⟩
    · simp [hm] at h
  · rintro ⟨key, hmem, hm⟩
    exact ⟨(key, info), hmem, by simp [hm]⟩

theorem searchKnowledge_perm (entries : List (Str × MedicalInfo)) (query : Str)
    (h : entries.Perm knowledge) :
    (searchKnowledge entries query).Perm (searchKnowledge knowledge query) :=
  h.filterMap _

theorem searchKnowledge_sublist (entries : List (Str × MedicalInfo)) (query : Str) :
    (searchKnowledge entries query).Sublist (entries.map (fun e => e.2)) := by
  induction entries with
  | nil => simp [searchKnowledge]
  | cons e es ih =>
    simp only [searchKnowledge, List.filterMap_cons, List.map_cons] at ih ⊢
    by_cases hm : knowledgeMatch query e.1 e.2 = true
    · simp only [hm, if_true]
      exact ih.cons₂ _
    · simp only [hm, Bool.false_eq_true, if_false]
      exact ih.cons _

theorem knowledge_records_nodup : (knowledge.map (fun e => e.2)).Nodup := by
  have h : (knowledge.map (fun e => e.2.Topic)).Nodup := by decide
  have e : knowledge.map (fun e => e.2.Topic) =
      (knowledge.map (fun e => e.2)).map (fun i => i.Topic) := by
    rw [List.map_map]
    rfl
  rw [e] at h
  exact List.Nodup.of_map _ h

theorem searchKnowledge_nodup (entries : List (Str × MedicalInfo)) (query : Str)
    (h : entries.Perm knowledge) : (searchKnowledge entries query).Nodup := by
  have hp : (entries.map (fun e => e.2)).Perm (knowledge.map (fun e => e.2)) := h.map _
  exact (hp.nodup_iff.2 knowledge_records_nodup).sublist (searchKnowledge_sublist entries query)

/-- C11 (counterexample): for the unknown query 糖尿病 the lookup returns nothing, although
the key of every record of the table is a substring of its own topic, so that the stated
condition selects all seven records. -/
theorem searchKnowledge_unknown_query :
    searchKnowledge knowledge "糖尿病".toList = [] ∧
      (knowledge.filter (fun e => Contains "糖尿病".toList e.1 || Contains e.1 "糖尿病".toList ||
          Contains (ToLower e.2.Topic) (ToLower e.1))).map (fun e => e.2) =
        knowledge.map (fun e => e.2) := by
  decide

/-- C11 (amended): whatever the iteration order of the table, `searchKnowledge q` holds
exactly the records whose key is a substring of `q`, or of whose key `q` is a substring,
or of whose lower-cased topic `q` is a substring, each once; it is empty when no record
is such.  The query 尿酸 returns the 尿酸 (Uric Acid) record, the query 糖尿病 nothing. -/
theorem searchKnowledge_exact (entries : List (Str × MedicalInfo))
    (horder : entries.Perm knowledge) (q : Str) :
    (∀ info, info ∈ searchKnowledge entries q ↔
        ∃ key, (key, info) ∈ knowledge ∧
          (Contains q key = true ∨ Contains key q = true ∨
            Contains (ToLower info.Topic) q = true)) ∧
      (searchKnowledge entries q).Nodup ∧
      ((∀ key info, (key, info) ∈ knowledge →
          ¬ (Contains q key = true ∨ Contains key q = true ∨
            Contains (ToLower info.Topic) q = true)) → searchKnowledge entries q = []) ∧
      uricAcidInfo ∈ searchKnowledge entries "尿酸".toList ∧
      searchKnowledge entries "糖尿病".toList = [] := by
  have hmem : ∀ q info, info ∈ searchKnowledge entries q ↔
      ∃ key, (key, info) ∈ knowledge ∧
        (Contains q key = true ∨ Contains key q = true ∨
          Contains (ToLower info.Topic) q = true) := by
    intro q info
    rw [mem_searchKnowledge]
    constructor
    · rintro ⟨key, hk, hm⟩
      refine ⟨key, horder.subset hk, ?_⟩
      simpa [knowledgeMatch, or_assoc] using hm
    · rintro ⟨key, hk, hm⟩
      refine ⟨key, horder.symm.subset hk, ?_⟩
      simpa [knowledgeMatch, or_assoc] using hm
  refine ⟨hmem q, searchKnowledge_nodup entries q horder, ?_, ?_, ?_⟩
  · intro hnone
    refine List.eq_nil_iff_forall_not_mem.2 (fun info hinfo => ?_)
    obtain ⟨key, hk, hm⟩ := (hmem q info).1 hinfo
    exact hnone key info hk hm
  · exact (hmem _ _).2 ⟨"尿酸".toList, by decide, Or.inl (by decide)⟩
  · have h0 : searchKnowledge knowledge "糖尿病".toList = [] := by decide
    have hp := searchKnowledge_perm entries "糖尿病".toList horder
    rw [h0] at hp
    exact hp.eq_nil

/-- C11 for the table iterated in reverse order. -/
theorem searchKnowledge_exact_witness :
    uricAcidInfo ∈ searchKnowledge knowledge.reverse "尿酸".toList ∧
      searchKnowledge knowledge.reverse "糖尿病".toList = [] :=
  ((searchKnowledge_exact knowledge.reverse (List.reverse_perm knowledge)
    "尿酸".toList).2.2.2)

/-! ## Independence of the lines -/

theorem splitLines_ne_nil (s : Str) : splitLines s ≠ [] := by
  induction s with
  | nil => simp [splitLines]
  | cons c cs ih =>
    rw [splitLines]
    split_ifs
    · simp
    · cases h : splitLines cs with
      | nil => simp
      | cons l ls => simp

theorem splitLines_append (a b : Str) :
    splitLines (a ++ '\n' :: b) = splitLines a ++ splitLines b := by
  induction a with
  | nil => simp [splitLines]
  | cons c cs ih =>
    rw [List.cons_append, splitLines, splitLines, ih]
    split_ifs with hc
    · rfl
    · cases h : splitLines cs with
      | nil => exact absurd h (splitLines_ne_nil cs)
      | cons l ls => rfl

theorem parseLabInput_append (a b : Str) :
    (parseLabInput (a ++ '\n' :: b)).1 = (parseLabInput a).1 ++ (parseLabInput b).1 := by
  simp only [parseLabInput, splitLines_append, List.filterMap_append]

theorem parseLine_blank (l : Str) (h : ∀ c ∈ l, isSpace c = true) : parseLine l = none := by
  have h1 : l.dropWhile isSpace = [] := by
    rw [List.dropWhile_eq_nil_iff]
    exact h
  have h2 : TrimSpace l = [] := by
    rw [TrimSpace, h1]
    rfl
  simp [parseLine, h2]

/-- C14: the lines are processed independently.  The measurements of `a`, a line feed and
`b` are those of `a` followed by those of `b`; a text that is one line yields the zero
or one measurement of that line; and a line that yields nothing, a blank line in
particular, changes nothing about the measurements around it. -/
theorem parseLabInput_lines :
    (∀ a b : Str, (parseLabInput (a ++ "\n".toList ++ b)).1 =
        (parseLabInput a).1 ++ (parseLabInput b).1) ∧
      (∀ input : Str, (parseLabInput input).1 = (splitLines input).filterMap parseLine) ∧
      (∀ l : Str, (∀ c ∈ l, c ≠ '\n') → (parseLabInput l).1 = (parseLine l).toList) ∧
      (∀ a l b : Str, (∀ c ∈ l, c ≠ '\n') → parseLine l = none →
        (parseLabInput (a ++ "\n".toList ++ l ++ "\n".toList ++ b)).1 =
          (parseLabInput a).1 ++ (parseLabInput b).1) ∧
      (∀ l : Str, (∀ c ∈ l, isSpace c = true) → parseLine l = none) := by
  have hone : ∀ l : Str, (∀ c ∈ l, c ≠ '\n') → (parseLabInput l).1 = (parseLine l).toList := by
    intro l hl
    simp only [parseLabInput, splitLines_single l hl, List.filterMap_cons, List.filterMap_nil]
    cases parseLine l <;> rfl
  refine ⟨?_, fun _ => rfl, hone, ?_, parseLine_blank⟩
  · intro a b
    have e : a ++ "\n".toList ++ b = a ++ '\n' :: b := by simp
    rw [e, parseLabInput_append]
  · intro a l b hl hnone
    have e : a ++ "\n".toList ++ l ++ "\n".toList ++ b = a ++ '\n' :: (l ++ '\n' :: b) := by
      simp
    rw [e, parseLabInput_append, parseLabInput_append, hone l hl, hnone]
    rfl

/-- C14 at a report of two measurements around a blank line. -/
theorem parseLabInput_lines_witness :
    (parseLabInput ("尿酸 520 umol/L (参考范围: 208-428)".toList ++ "\n".toList ++
        "  ".toList ++ "\n".toList ++ "肌酐 135 umol/L (参考范围: 54-106)".toList)).1 =
      (parseLabInput "尿酸 520 umol/L (参考范围: 208-428)".toList).1 ++
        (parseLabInput "肌酐 135 umol/L (参考范围: 54-106)".toList).1 :=
  parseLabInput_lines.2.2.2.1 _ _ _ (by decide)
    (parseLabInput_lines.2.2.2.2 _ (by decide))

/-! ## The uric-acid measurement that is kept -/

theorem uricStep_uricAcidLevel (st : LoopState) (m : LabResult) (p : Str) :
    (uricStep st m p).analysis.UricAcidLevel =
      if isUricAcid p then some m else st.analysis.UricAcidLevel := by
  unfold uricStep
  split_ifs <;> rfl

theorem inflammationStep_uricAcidLevel (st : LoopState) (m : LabResult) (p : Str) :
    (inflammationStep st m p).analysis.UricAcidLevel = st.analysis.UricAcidLevel := by
  unfold inflammationStep
  split_ifs <;> rfl

theorem kidneyStep_uricAcidLevel (st : LoopState) (m : LabResult) (p : Str) :
    (kidneyStep st m p).analysis.UricAcidLevel = st.analysis.UricAcidLevel := by
  unfold kidneyStep
  split_ifs <;> rfl

theorem analyzeStep_uricAcidLevel (st : LoopState) (m : LabResult) :
    (analyzeStep st m).analysis.UricAcidLevel =
      if isUricAcid (ToLower m.Parameter) then some m else st.analysis.UricAcidLevel := by
  rw [analyzeStep, kidneyStep_uricAcidLevel, inflammationStep_uricAcidLevel,
    uricStep_uricAcidLevel]

theorem foldl_uricAcidLevel (ms : List LabResult) (st : LoopState) :
    (ms.foldl analyzeStep st).analysis.UricAcidLevel =
      ((ms.filter (fun m => isUricAcid (ToLower m.Parameter))).getLast?).or
        st.analysis.UricAcidLevel := by
  induction ms generalizing st with
  | nil => simp
  | cons m ms ih =>
    rw [List.foldl_cons, ih, analyzeStep_uricAcidLevel, List.filter_cons]
    by_cases hm : isUricAcid (ToLower m.Parameter) = true
    · simp only [hm, if_true]
      cases hf : ms.filter (fun m => isUricAcid (ToLower m.Parameter)) with
      | nil => simp
      | cons x xs =>
        rw [List.getLast?_cons_cons, List.getLast?_eq_getLast (x :: xs) (by simp)]
        rfl
    · simp only [hm, Bool.false_eq_true, if_false]

theorem analyzeGoutRisk_uricAcidLevel (ms : List LabResult) :
    (analyzeGoutRisk ms).UricAcidLevel =
      (ms.filter (fun m => isUricAcid (ToLower m.Parameter))).getLast? := by
  have h := foldl_uricAcidLevel ms initState
  simp only [analyzeGoutRisk, assessRisk]
  split_ifs <;> simpa [initState] using h

/-- C15: the uric-acid measurement of the result is absent iff no measurement has a
lower-cased name containing 尿酸 or uric, and otherwise it is the last such measurement
of the input, unchanged; a report with two keeps the second only. -/
theorem uricAcidLevel_last (ms : List LabResult) :
    ((analyzeGoutRisk ms).UricAcidLevel = none ↔
        ∀ m ∈ ms, ¬ (Contains (ToLower m.Parameter) "尿酸".toList = true ∨
          Contains (ToLower m.Parameter) "uric".toList = true)) ∧
      (analyzeGoutRisk ms).UricAcidLevel =
        (ms.filter (fun m => Contains (ToLower m.Parameter) "尿酸".toList ||
          Contains (ToLower m.Parameter) "uric".toList)).getLast? ∧
      (∀ a b : List LabResult, ∀ u : LabResult,
        (Contains (ToLower u.Parameter) "尿酸".toList = true ∨
          Contains (ToLower u.Parameter) "uric".toList = true) →
        (∀ m ∈ b, ¬ (Contains (ToLower m.Parameter) "尿酸".toList = true ∨
          Contains (ToLower m.Parameter) "uric".toList = true)) →
        (analyzeGoutRisk (a ++ u :: b)).UricAcidLevel = some u) := by
  have hfun : (fun m : LabResult => isUricAcid (ToLower m.Parameter)) =
      (fun m : LabResult => Contains (ToLower m.Parameter) "尿酸".toList ||
          Contains (ToLower m.Parameter) "uric".toList) := rfl
  refine ⟨?_, ?_, ?_⟩
  · rw [analyzeGoutRisk_uricAcidLevel, List.getLast?_eq_none_iff, List.filter_eq_nil_iff]
    simp [isUricAcid]
  · rw [analyzeGoutRisk_uricAcidLevel, hfun]
  · intro a b u hu hb
    rw [analyzeGoutRisk_uricAcidLevel, List.filter_append, List.filter_cons]
    have h1 : isUricAcid (ToLower u.Parameter) = true := by
      simpa [isUricAcid] using hu
    have h2 : b.filter (fun m => isUricAcid (ToLower m.Parameter)) = [] := by
      rw [List.filter_eq_nil_iff]
      intro m hm
      simpa [isUricAcid] using hb m hm
    rw [h1, if_pos rfl, h2, List.getLast?_append_of_ne_nil _ (by simp)]
    rfl

/-- C15 at a report with two uric-acid lines around a creatinine line: the second uric
acid is kept. -/
theorem uricAcidLevel_last_witness :
    (analyzeGoutRisk
      ([{ Parameter := "尿酸".toList, Value := 520, Unit := "umol/L".toList,
          ReferenceMin := 208, ReferenceMax := 428, Status := statusHigh },
        { Parameter := "肌酐".toList, Value := 135, Unit := "umol/L".toList,
          ReferenceMin := 54, ReferenceMax := 106, Status := statusHigh }] ++
        { Parameter := "血尿酸".toList, Value := 300, Unit := "umol/L".toList,
          ReferenceMin := 208, ReferenceMax := 428, Status := statusNormal } ::
        [])).UricAcidLevel =
      some { Parameter := "血尿酸".toList, Value := 300, Unit := "umol/L".toList,
             ReferenceMin := 208, ReferenceMax := 428, Status := statusNormal } :=
  (uricAcidLevel_last []).2.2 _ [] _ (Or.inl (by decide)) (by simp)

/-! ## Lines with a lower bound, and ranges without the label -/

/-- The bound alternative on `(>X)`: group 7 is `>`, group 8 is `X`. -/
theorem run_reBound_gt (X rest : Str) (caps r : Caps) (k : Str → Caps → Option Caps)
    (qx : ℚ) (hx : ParseFloat X = some qx)
    (hk : k rest ((caps.set 7 ['>']).set 8 X) = some r) :
    reBound.run ('(' :: '>' :: (X ++ ')' :: rest)) caps k = some r := by
  unfold reBound
  rw [run_seq, run_cls_cons, if_pos (by decide)]
  rw [run_seq, run_star_greedy, starGreedy, if_neg (by decide)]
  rw [run_seq, run_group]
  refine run_opt_take _ _ _ _ _ ?_
  rw [run_cls_cons, if_pos (by decide)]
  have e : ('>' :: (X ++ ')' :: rest)).take
      (('>' :: (X ++ ')' :: rest)).length - (X ++ ')' :: rest).length) = ['>'] :=
    take_append_sub ['>'] _
  simp only [e]
  rw [run_seq]
  refine run_group_reNumber 8 X (')' :: rest) _ r _ qx hx ?_ ?_
  · intro c hc
    simp only [List.head?_cons, Option.mem_def, Option.some.injEq] at hc
    subst hc
    decide
  rw [run_seq, run_star_greedy, starGreedy, if_neg (by decide)]
  refine run_opt_take _ _ _ _ _ ?_
  rw [run_cls_cons, if_pos (by decide)]
  exact hk

/-- The bound alternative on `(low-`: group 7 is empty, group 8 is `low`, and the match
ends before the hyphen. -/
theorem run_reBound_plain (low rest : Str) (caps r : Caps) (k : Str → Caps → Option Caps)
    (ql : ℚ) (hl : ParseFloat low = some ql)
    (hk : k ('-' :: rest) ((caps.set 7 []).set 8 low) = some r) :
    reBound.run ('(' :: (low ++ '-' :: rest)) caps k = some r := by
  obtain ⟨d, t, hld, hd⟩ := parseFloat_head hl
  unfold reBound
  rw [run_seq, run_cls_cons, if_pos (by decide)]
  rw [run_seq, run_star_greedy]
  refine starGreedy_span reSpace _ [] (low ++ '-' :: rest) r (by simp) ?_ ?_
  · intro c hc
    rw [hld] at hc
    simp only [List.cons_append, List.head?_cons, Option.mem_def, Option.some.injEq] at hc
    subst hc
    exact reSpace_not_digit hd
  rw [run_seq, run_group, run_opt_skip]
  swap
  · rw [hld, List.cons_append, run_cls_cons, if_neg]
    rw [not_sign_of_digit hd]
    exact Bool.false_ne_true
  simp only [Nat.sub_self, List.take_zero]
  rw [run_seq]
  refine run_group_reNumber 8 low ('-' :: rest) _ r _ ql hl ?_ ?_
  · intro c hc
    simp only [List.head?_cons, Option.mem_def, Option.some.injEq] at hc
    subst hc
    decide
  rw [run_seq, run_star_greedy, starGreedy, if_neg (by decide)]
  rw [run_opt_skip]
  · exact hk
  · rw [run_cls_cons, if_neg (by decide)]

theorem run_tail_bound_gt (X rest : Str) (caps r : Caps) (k : Str → Caps → Option Caps)
    (qx : ℚ) (hx : ParseFloat X = some qx)
    (hk : k rest ((caps.set 7 ['>']).set 8 X) = some r) :
    (Regex.seq (.star (fun c => c ≠ '\n') false) (.alt reRange reBound)).run
      (' ' :: '(' :: '>' :: (X ++ ')' :: rest)) caps k = some r := by
  rw [run_seq, run_star_lazy, starLazy_skip]
  · refine starLazy_stop _ _ _ r ?_
    rw [run_alt_right _ _ _ _ _ (reRange_none_of_head _ _ _ _ (by decide))]
    exact run_reBound_gt X rest caps r k qx hx hk
  · rw [run_alt_right _ _ _ _ _ (reRange_none_of_head _ _ _ _ (by decide))]
    exact reBound_none_of_head _ _ _ _ (by decide)
  · decide

theorem run_tail_plain (low rest : Str) (caps r : Caps) (k : Str → Caps → Option Caps)
    (ql : ℚ) (hl : ParseFloat low = some ql)
    (hk : k ('-' :: rest) ((caps.set 7 []).set 8 low) = some r) :
    (Regex.seq (.star (fun c => c ≠ '\n') false) (.alt reRange reBound)).run
      (' ' :: '(' :: (low ++ '-' :: rest)) caps k = some r := by
  rw [run_seq, run_star_lazy, starLazy_skip]
  · refine starLazy_stop _ _ _ r ?_
    rw [run_alt_right _ _ _ _ _ (reRange_none_of_head _ _ _ _ (by decide))]
    exact run_reBound_plain low rest caps r k ql hl hk
  · rw [run_alt_right _ _ _ _ _ (reRange_none_of_head _ _ _ _ (by decide))]
    exact reBound_none_of_head _ _ _ _ (by decide)
  · decide

theorem lowerBoundLine_eq (name value unit bound : Str) :
    lowerBoundLine name value unit bound =
      name ++ ' ' :: (value ++ ' ' :: (unit ++ ' ' :: '(' :: '>' :: (bound ++ [')']))) := by
  simp [lowerBoundLine]

theorem plainRangeLine_eq (name value unit low high : Str) :
    plainRangeLine name value unit low high =
      name ++ ' ' :: (value ++ ' ' :: (unit ++ ' ' :: '(' :: (low ++ '-' :: (high ++ [')'])))) := by
  simp [plainRangeLine]

theorem roundFloat64_nonneg {n d : Nat} {q : ℚ} (h : roundFloat64 n d = some q) :
    0 ≤ q := by
  unfold roundFloat64 at h
  simp only at h
  split_ifs at h
  simp only [Option.some.injEq] at h
  rw [← h]
  exact Rat.mkRat_nonneg (Int.natCast_nonneg _) _

theorem parseFloat_nonneg {X : Str} {q : ℚ} (h : ParseFloat X = some q) : 0 ≤ q := by
  unfold ParseFloat at h
  simp only at h
  split_ifs at h with h1
  split at h
  · exact roundFloat64_nonneg h
  · split_ifs at h with h2
    exact roundFloat64_nonneg h

theorem no_newline_lowerBoundLine (name value unit bound : Str) (v x : ℚ)
    (hnl : ∀ c ∈ name, c ≠ '\n') (hv : ParseFloat value = some v)
    (hunitc : ∀ c ∈ unit, reUnit c = true) (hx : ParseFloat bound = some x) :
    ∀ c ∈ lowerBoundLine name value unit bound, c ≠ '\n' := by
  intro c hc
  simp only [lowerBoundLine, List.mem_append] at hc
  rcases hc with ((((((hc | hc) | hc) | hc) | hc) | hc) | hc) | hc
  · exact hnl c hc
  · revert c; decide
  · exact not_newline_of_parseFloat hv c hc
  · revert c; decide
  · exact not_newline_of_reUnit (hunitc c hc)
  · revert c; decide
  · exact not_newline_of_parseFloat hx c hc
  · revert c; decide

theorem no_newline_plainRangeLine (name value unit low high : Str) (v lo hi : ℚ)
    (hnl : ∀ c ∈ name, c ≠ '\n') (hv : ParseFloat value = some v)
    (hunitc : ∀ c ∈ unit, reUnit c = true)
    (hl : ParseFloat low = some lo) (hh : ParseFloat high = some hi) :
    ∀ c ∈ plainRangeLine name value unit low high, c ≠ '\n' := by
  intro c hc
  simp only [plainRangeLine, List.mem_append] at hc
  rcases hc with ((((((((hc | hc) | hc) | hc) | hc) | hc) | hc) | hc) | hc) | hc
  · exact hnl c hc
  · revert c; decide
  · exact not_newline_of_parseFloat hv c hc
  · revert c; decide
  · exact not_newline_of_reUnit (hunitc c hc)
  · revert c; decide
  · exact not_newline_of_parseFloat hl c hc
  · revert c; decide
  · exact not_newline_of_parseFloat hh c hc
  · revert c; decide

/-- C12 (counterexample): without the label, `尿酸 520 umol/L (208-428)` is parsed with
both bounds 0 and the status 正常, although 520 exceeds 428. -/
theorem parseLabInput_unlabelled_example :
    parseLabInput "尿酸 520 umol/L (208-428)".toList =
      ([{ Parameter := "尿酸".toList, Value := 520, Unit := "umol/L".toList,
          ReferenceMin := 0, ReferenceMax := 0, Status := statusNormal }], none) ∧
      FindStringSubmatch labRegex 8 "尿酸 520 umol/L (208-428)".toList =
        ["尿酸 520 umol/L (208".toList, "尿酸".toList, "520".toList, "umol/L".toList,
          [], [], [], [], "208".toList] := by
  decide

/-- C13 (counterexample): in `GFR 1000000 ml/min (>90)` the value exceeds the stored upper
bound 999999, and the status is 偏高. -/
theorem parseLabInput_sentinel_example :
    parseLabInput "GFR 1000000 ml/min (>90)".toList =
      ([{ Parameter := "GFR".toList, Value := 1000000, Unit := "ml/min".toList,
          ReferenceMin := 90, ReferenceMax := 999999, Status := statusHigh }], none) := by
  decide

/-- C16: a glomerular-filtration-rate measurement named by the native alias,
`肾小球滤过率 50 ml/min (>90)`, is parsed with the status 偏低 and listed among the kidney
markers, but is not counted as a kidney issue: no kidney recommendation is added.  Under
the name `GFR` the same measurement is counted. -/
theorem analyzeGoutRisk_native_gfr_low :
    (parseLabInput "肾小球滤过率 50 ml/min (>90)".toList).1 =
        [{ Parameter := "肾小球滤过率".toList, Value := 50, Unit := "ml/min".toList,
           ReferenceMin := 90, ReferenceMax := 999999, Status := statusLow }] ∧
      (analyzeText "肾小球滤过率 50 ml/min (>90)".toList).KidneyFunction =
        [{ Parameter := "肾小球滤过率".toList, Value := 50, Unit := "ml/min".toList,
           ReferenceMin := 90, ReferenceMax := 999999, Status := statusLow }] ∧
      (analyzeText "肾小球滤过率 50 ml/min (>90)".toList).Recommendations =
        [summaryDefault] ∧
      (analyzeText "GFR 50 ml/min (>90)".toList).Recommendations =
        summaryDefault :: kidneyAdvice := by
  decide

/-! ## Names with white space around them -/

theorem split_trailing (p : Char → Bool) (l : Str) :
    ∃ g w, l = g ++ w ∧ (∀ c ∈ w, p c = true) ∧ (∀ c ∈ g.getLast?, p c = false) := by
  induction l using List.reverseRecOn with
  | nil => exact ⟨[], [], rfl, by simp, by simp⟩
  | append_singleton l x ih =>
    obtain ⟨g, w, hl, hw, hg⟩ := ih
    by_cases hx : p x = true
    · refine ⟨g, w ++ [x], by rw [hl, List.append_assoc], ?_, hg⟩
      intro c hc
      rcases List.mem_append.1 hc with hc | hc
      · exact hw c hc
      · rw [List.mem_singleton.1 hc]
        exact hx
    · refine ⟨l ++ [x], [], by simp, by simp, ?_⟩
      intro c hc
      rw [List.getLast?_append_of_ne_nil _ (by simp)] at hc
      have : c = x := by simpa using hc.symm
      rw [this]
      simpa using hx

theorem TrimSpace_append_left (pre s : Str) (hpre : ∀ c ∈ pre, isSpace c = true) :
    TrimSpace (pre ++ s) = TrimSpace s := by
  rw [TrimSpace, TrimSpace, List.dropWhile_append_of_pos hpre]

theorem TrimSpace_append_right (c0 : Char) (xs w : Str) (hc0 : isSpace c0 = false)
    (hw : ∀ c ∈ w, isSpace c = true) :
    TrimSpace (c0 :: xs ++ w) = TrimSpace (c0 :: xs) := by
  have h1 : (c0 :: xs ++ w).dropWhile isSpace = c0 :: xs ++ w := by
    simp [List.dropWhile_cons, hc0]
  have h2 : (c0 :: xs).dropWhile isSpace = c0 :: xs := by
    simp [List.dropWhile_cons, hc0]
  rw [TrimSpace, TrimSpace, h1, h2, List.reverse_append,
    List.dropWhile_append_of_pos (fun c hc => hw c (List.mem_reverse.1 hc))]

/-- A name that is not blank is white space, then a part that starts with a character
that is no white space and does not end with one of the class `\s`, then characters of
the class `\s`; trimming the middle part gives the trimmed name. -/
theorem name_split (name : Str) (hns : TrimSpace name ≠ []) :
    ∃ pre c0 xs w, name = pre ++ (c0 :: xs ++ w) ∧ (∀ c ∈ pre, isSpace c = true) ∧
      isSpace c0 = false ∧ (∀ c ∈ (c0 :: xs).getLast?, reSpace c = false) ∧
      (∀ c ∈ w, reSpace c = true) ∧ TrimSpace (c0 :: xs) = TrimSpace name := by
  have hsplit := List.takeWhile_append_dropWhile isSpace name
  have hpre : ∀ c ∈ name.takeWhile isSpace, isSpace c = true :=
    fun c hc => List.mem_takeWhile_imp hc
  cases hnm : name.dropWhile isSpace with
  | nil =>
    exfalso
    apply hns
    rw [TrimSpace, hnm]
    rfl
  | cons c0 t =>
    have hc0 : isSpace c0 = false := by
      have h := List.head?_dropWhile_not isSpace name
      rw [hnm] at h
      simpa using h
    obtain ⟨g, w, hgw, hw, hg⟩ := split_trailing reSpace (c0 :: t)
    cases g with
    | nil =>
      exfalso
      have hmem : c0 ∈ w := by
        rw [List.nil_append] at hgw
        rw [← hgw]
        simp
      have h1 := isSpace_of_reSpace (hw c0 hmem)
      rw [hc0] at h1
      exact absurd h1 (by decide)
    | cons g0 xs =>
      have hg0 : g0 = c0 := by
        have h := congrArg List.head? hgw
        simpa using h.symm
      subst hg0
      refine ⟨name.takeWhile isSpace, g0, xs, w, ?_, hpre, hc0, hg, hw, ?_⟩
      · rw [← hgw, ← hnm, hsplit]
      · have e : name = name.takeWhile isSpace ++ (g0 :: xs ++ w) := by
          rw [← hgw, ← hnm, hsplit]
        calc TrimSpace (g0 :: xs) = TrimSpace (g0 :: xs ++ w) :=
              (TrimSpace_append_right g0 xs w hc0
                (fun c hc => isSpace_of_reSpace (hw c hc))).symm
          _ = TrimSpace (name.takeWhile isSpace ++ (g0 :: xs ++ w)) :=
              (TrimSpace_append_left _ _ hpre).symm
          _ = TrimSpace name := by rw [← e]

/-- The name, the spaces after it and the value, when characters of the class `\s`
follow the name: group 1 is the name without them, group 2 the value. -/
theorem run_name_spaces_value (R : Regex) (c0 : Char) (xs w value rest : Str)
    (caps r : Caps) (k : Str → Caps → Option Caps) (q : ℚ)
    (hnd : ∀ c ∈ c0 :: xs, isDigit c = false)
    (hlast : ∀ c ∈ (c0 :: xs).getLast?, reSpace c = false)
    (hw : ∀ c ∈ w, reSpace c = true)
    (hv : ParseFloat value = some q)
    (hrest : ∀ c ∈ rest.head?, isDigit c = false ∧ c ≠ '.')
    (hk : R.run rest ((caps.set 1 (c0 :: xs)).set 2 value) k = some r) :
    (Regex.seq (.group 1 (Regex.plusLazy (fun c => !isDigit c)))
      (.seq (.star reSpace true) (.seq (.group 2 reNumber) R))).run
        (c0 :: xs ++ (w ++ ' ' :: (value ++ rest))) caps k = some r := by
  have hc0 : isDigit c0 = false := hnd c0 (by simp)
  obtain ⟨d, t, hvd, hd⟩ := parseFloat_head hv
  rw [run_seq, run_group, Regex.plusLazy, run_seq, List.cons_append, run_cls_cons]
  simp only [hc0, Bool.not_false, if_true]
  rw [run_star_lazy]
  refine starLazy_first _ _ xs (w ++ ' ' :: (value ++ rest)) r ?_ ?_ ?_
  · intro c hc
    simp [hnd c (List.mem_cons_of_mem _ hc)]
  · intro a b hab hb
    rw [run_seq, run_star_greedy]
    refine starGreedy_none reSpace _ b _ hb ?_ ?_
    · intro c hc
      refine hlast c ?_
      rw [hab, ← List.cons_append]
      exact List.mem_getLast?_append_of_mem_getLast? hc
    · intro c hc u
      rw [run_seq]
      refine run_group_reNumber_none 2 c u _ _ (hnd c ?_)
      rw [hab]
      exact List.mem_cons_of_mem _ (List.mem_append_right _ hc)
  · rw [run_seq, run_star_greedy]
    have e1 : w ++ ' ' :: (value ++ rest) = (w ++ [' ']) ++ (value ++ rest) := by simp
    rw [e1]
    refine starGreedy_span reSpace _ (w ++ [' ']) (value ++ rest) r ?_ ?_ ?_
    · intro c hc
      rcases List.mem_append.1 hc with hc | hc
      · exact hw c hc
      · rw [List.mem_singleton.1 hc]
        decide
    · intro c hc
      rw [hvd] at hc
      simp only [List.cons_append, List.head?_cons, Option.mem_def, Option.some.injEq] at hc
      subst hc
      exact reSpace_not_digit hd
    · rw [run_seq]
      refine run_group_reNumber 2 value rest _ r _ q hv hrest ?_
      have e : (c0 :: (xs ++ (w ++ [' '] ++ (value ++ rest)))).take
          ((c0 :: (xs ++ (w ++ [' '] ++ (value ++ rest)))).length -
            (w ++ [' '] ++ (value ++ rest)).length) = c0 :: xs :=
        take_append_sub (c0 :: xs) _
      rw [e]
      exact hk

/-- The groups of a line `name value unit tail`, given what the part of the pattern after
the unit does on the tail: `F` is its effect on the groups 4 to 8. -/
theorem findFrom_line (c0 : Char) (xs w value : Str) (u0 : Char) (us tail rest : Str)
    (F : Caps → Caps) (g4 g5 g6 g7 g8 : Str) (qv : ℚ)
    (hnd : ∀ c ∈ c0 :: xs, isDigit c = false)
    (hlast : ∀ c ∈ (c0 :: xs).getLast?, reSpace c = false)
    (hw : ∀ c ∈ w, reSpace c = true)
    (hv : ParseFloat value = some qv)
    (hunit : ∀ c ∈ u0 :: us, reUnit c = true)
    (hF : F [[], c0 :: xs, value, u0 :: us, [], [], [], [], []] =
      [[], c0 :: xs, value, u0 :: us, g4, g5, g6, g7, g8])
    (hrun : ∀ (caps r : Caps) (k : Str → Caps → Option Caps), k rest (F caps) = some r →
      (Regex.seq (.star (fun c => c ≠ '\n') false) (.alt reRange reBound)).run
        (' ' :: tail) caps k = some r) :
    ∃ m0, findFrom labRegex 8
        (c0 :: xs ++ (w ++ ' ' :: (value ++ ' ' :: (u0 :: us ++ ' ' :: tail)))) =
      some [m0, c0 :: xs, value, u0 :: us, g4, g5, g6, g7, g8] := by
  have h := fun r k hk => run_name_spaces_value
    (.seq (.star reSpace true) (.seq (.group 3 (Regex.plus reUnit))
      (.seq (.star (fun c => c ≠ '\n') false) (.alt reRange reBound))))
    c0 xs w value (' ' :: (u0 :: us ++ ' ' :: tail))
    (List.replicate (8 + 1) []) r k qv hnd hlast hw hv (by simp; decide)
    (run_unit _ u0 us _ _ r k hunit (by simp; decide) (hrun _ r k hk))
  have e : (((List.replicate (8 + 1) ([] : Str)).set 1 (c0 :: xs)).set 2 value).set 3
      (u0 :: us) = [[], c0 :: xs, value, u0 :: us, [], [], [], [], []] := rfl
  rw [List.cons_append, findFrom, ← List.cons_append, labRegex]
  rw [h _ _ rfl, e, hF]
  exact ⟨_, rfl⟩

/-- The measurement of a line `name value unit tail`, from the groups of its match. -/
theorem parseLine_line (name value unit tail rest : Str) (F : Caps → Caps)
    (g4 g5 g6 g7 g8 : Str) (v : ℚ)
    (hnd : ∀ c ∈ name, isDigit c = false) (hns : TrimSpace name ≠ [])
    (hv : ParseFloat value = some v)
    (hunit : unit ≠ []) (hunitc : ∀ c ∈ unit, reUnit c = true)
    (htne : tail ≠ []) (htail : ∀ c ∈ tail.getLast?, isSpace c = false)
    (hF : ∀ g, F [[], g, value, unit, [], [], [], [], []] =
      [[], g, value, unit, g4, g5, g6, g7, g8])
    (hrun : ∀ (caps r : Caps) (k : Str → Caps → Option Caps), k rest (F caps) = some r →
      (Regex.seq (.star (fun c => c ≠ '\n') false) (.alt reRange reBound)).run
        (' ' :: tail) caps k = some r) :
    ∃ m0 g, parseLine (name ++ ' ' :: (value ++ ' ' :: (unit ++ ' ' :: tail))) =
      some { parseReference [m0, g, value, unit, g4, g5, g6, g7, g8]
               { Parameter := TrimSpace name, Value := v, Unit := unit, ReferenceMin := 0,
                 ReferenceMax := 0, Status := [] } with
             Status := determineStatus
               (parseReference [m0, g, value, unit, g4, g5, g6, g7, g8]
                 { Parameter := TrimSpace name, Value := v, Unit := unit,
                   ReferenceMin := 0, ReferenceMax := 0, Status := [] }) } := by
  obtain ⟨pre, c0, xs, w, hname, hpre, hc0, hlast, hw, hTg⟩ := name_split name hns
  obtain ⟨u0, us, rfl⟩ := List.exists_cons_of_ne_nil hunit
  have hndg : ∀ c ∈ c0 :: xs, isDigit c = false := by
    intro c hc
    refine hnd c ?_
    rw [hname]
    exact List.mem_append_right _ (List.mem_append_left _ hc)
  obtain ⟨m0, hf⟩ := findFrom_line c0 xs w value u0 us tail rest F g4 g5 g6 g7 g8 v hndg
    hlast hw hv hunitc (hF _) hrun
  have hline : name ++ ' ' :: (value ++ ' ' :: (u0 :: us ++ ' ' :: tail)) =
      pre ++ (c0 :: xs ++ (w ++ ' ' :: (value ++ ' ' :: (u0 :: us ++ ' ' :: tail)))) := by
    rw [hname]
    simp
  have hT : TrimSpace (name ++ ' ' :: (value ++ ' ' :: (u0 :: us ++ ' ' :: tail))) =
      c0 :: xs ++ (w ++ ' ' :: (value ++ ' ' :: (u0 :: us ++ ' ' :: tail))) := by
    rw [hline, TrimSpace_append_left _ _ hpre]
    refine TrimSpace_eq_self _ ?_ ?_
    · intro c hc
      simp only [List.cons_append, List.head?_cons, Option.mem_def, Option.some.injEq] at hc
      rw [← hc]
      exact hc0
    · intro c hc
      have e : c0 :: xs ++ (w ++ ' ' :: (value ++ ' ' :: (u0 :: us ++ ' ' :: tail))) =
          (c0 :: xs ++ (w ++ ' ' :: (value ++ ' ' :: (u0 :: us ++ [' ']))) ++ tail) := by
        simp
      rw [e, List.getLast?_append_of_ne_nil _ htne] at hc
      exact htail c hc
  have hTu : TrimSpace (u0 :: us) = u0 :: us := TrimSpace_unit _ hunitc
  refine ⟨m0, c0 :: xs, ?_⟩
  simp only [List.cons_append] at hT hf
  simp [parseLine, hT, FindStringSubmatch, hf, hv, hTu, hTg]

/-! ## Lines of the four shapes, with any name -/

theorem last_paren (a b : Str) (h : b = a ++ [')']) :
    ∀ c ∈ b.getLast?, isSpace c = false := by
  intro c hc
  rw [h, List.getLast?_append_of_ne_nil _ (by decide)] at hc
  have : c = ')' := by simpa using hc.symm
  subst this
  decide

theorem parseLabInput_single (l : Str) (r : LabResult) (hnl : ∀ c ∈ l, c ≠ '\n')
    (h : parseLine l = some r) : parseLabInput l = ([r], none) := by
  rw [parseLabInput, splitLines_single l hnl, List.filterMap_cons, h]
  rfl

/-- The measurement of a line `name value unit (参考范围: low-high)`. -/
theorem parseLine_rangeLine (name value unit low high : Str) (v lo hi : ℚ)
    (hnd : ∀ c ∈ name, isDigit c = false) (hns : TrimSpace name ≠ [])
    (hv : ParseFloat value = some v)
    (hunit : unit ≠ []) (hunitc : ∀ c ∈ unit, reUnit c = true)
    (hl : ParseFloat low = some lo) (hh : ParseFloat high = some hi) :
    parseLine (rangeLine name value unit low high) =
      some { Parameter := TrimSpace name, Value := v, Unit := unit, ReferenceMin := lo,
             ReferenceMax := hi,
             Status := determineStatus
               { Parameter := TrimSpace name, Value := v, Unit := unit, ReferenceMin := lo,
                 ReferenceMax := hi, Status := [] } } := by
  obtain ⟨m0, g, h⟩ := parseLine_line name value unit
    ('(' :: '参' :: '考' :: '范' :: '围' :: ':' :: ' ' :: (low ++ '-' :: (high ++ [')'])))
    [')'] (fun caps => ((caps.set 4 []).set 5 low).set 6 high) [] low high [] [] v hnd hns
    hv hunit hunitc (by simp)
    (last_paren ('(' :: '参' :: '考' :: '范' :: '围' :: ':' :: ' ' :: (low ++ '-' :: high)) _
      (by simp))
    (fun _ => rfl)
    (fun caps r k hk => run_tail_range low high [')'] caps r k lo hi hl hh (by decide) hk)
  have hlo := ne_nil_of_parseFloat hl
  have hhi := ne_nil_of_parseFloat hh
  rw [rangeLine_eq, h]
  simp [parseReference, hl, hh, hlo, hhi]

/-- The measurement of a line `name value unit (<X)`. -/
theorem parseLine_boundLine (name value unit bound : Str) (v x : ℚ)
    (hnd : ∀ c ∈ name, isDigit c = false) (hns : TrimSpace name ≠ [])
    (hv : ParseFloat value = some v)
    (hunit : unit ≠ []) (hunitc : ∀ c ∈ unit, reUnit c = true)
    (hx : ParseFloat bound = some x) :
    parseLine (boundLine name value unit bound) =
      some { Parameter := TrimSpace name, Value := v, Unit := unit, ReferenceMin := 0,
             ReferenceMax := x,
             Status := determineStatus
               { Parameter := TrimSpace name, Value := v, Unit := unit, ReferenceMin := 0,
                 ReferenceMax := x, Status := [] } } := by
  obtain ⟨m0, g, h⟩ := parseLine_line name value unit ('(' :: '<' :: (bound ++ [')'])) []
    (fun caps => (caps.set 7 ['<']).set 8 bound) [] [] [] ['<'] bound v hnd hns
    hv hunit hunitc (by simp) (last_paren ('(' :: '<' :: bound) _ (by simp))
    (fun _ => rfl)
    (fun caps r k hk => run_tail_bound bound [] caps r k x hx hk)
  have hb := ne_nil_of_parseFloat hx
  rw [boundLine_eq, h]
  simp [parseReference, hx, hb]

/-- The measurement of a line `name value unit (>X)`. -/
theorem parseLine_lowerBoundLine (name value unit bound : Str) (v x : ℚ)
    (hnd : ∀ c ∈ name, isDigit c = false) (hns : TrimSpace name ≠ [])
    (hv : ParseFloat value = some v)
    (hunit : unit ≠ []) (hunitc : ∀ c ∈ unit, reUnit c = true)
    (hx : ParseFloat bound = some x) :
    parseLine (lowerBoundLine name value unit bound) =
      some { Parameter := TrimSpace name, Value := v, Unit := unit, ReferenceMin := x,
             ReferenceMax := 999999,
             Status := determineStatus
               { Parameter := TrimSpace name, Value := v, Unit := unit, ReferenceMin := x,
                 ReferenceMax := 999999, Status := [] } } := by
  obtain ⟨m0, g, h⟩ := parseLine_line name value unit ('(' :: '>' :: (bound ++ [')'])) []
    (fun caps => (caps.set 7 ['>']).set 8 bound) [] [] [] ['>'] bound v hnd hns
    hv hunit hunitc (by simp) (last_paren ('(' :: '>' :: bound) _ (by simp))
    (fun _ => rfl)
    (fun caps r k hk => run_tail_bound_gt bound [] caps r k x hx hk)
  have hb := ne_nil_of_parseFloat hx
  have hop : ['>'] ≠ "<".toList := by decide
  rw [lowerBoundLine_eq, h]
  simp [parseReference, hx, hb]

/-- The measurement of a line `name value unit (low-high)`. -/
theorem parseLine_plainRangeLine (name value unit low high : Str) (v lo : ℚ)
    (hnd : ∀ c ∈ name, isDigit c = false) (hns : TrimSpace name ≠ [])
    (hv : ParseFloat value = some v)
    (hunit : unit ≠ []) (hunitc : ∀ c ∈ unit, reUnit c = true)
    (hl : ParseFloat low = some lo) :
    parseLine (plainRangeLine name value unit low high) =
      some { Parameter := TrimSpace name, Value := v, Unit := unit, ReferenceMin := 0,
             ReferenceMax := 0, Status := statusNormal } := by
  obtain ⟨m0, g, h⟩ := parseLine_line name value unit
    ('(' :: (low ++ '-' :: (high ++ [')']))) ('-' :: (high ++ [')']))
    (fun caps => (caps.set 7 []).set 8 low) [] [] [] [] low v hnd hns
    hv hunit hunitc (by simp) (last_paren ('(' :: (low ++ '-' :: high)) _ (by simp))
    (fun _ => rfl)
    (fun caps r k hk => run_tail_plain low (high ++ [')']) caps r k lo hl hk)
  have hb := ne_nil_of_parseFloat hl
  rw [plainRangeLine_eq, h]
  simp [parseReference, hl, hb, determineStatus]

/-! ## The measurement extractor on the four line shapes -/

set_option maxRecDepth 100000 in
/-- C3 (counterexample): a value beyond the `float64` range makes the line disappear, and
a value that is not a `float64` is stored rounded: `尿酸 428.00000000000000001 umol/L
(参考范围: 208-428)` has the value 428 and the status 正常, although the numeral as written
exceeds 428. -/
theorem parseLabInput_rangeLine_float64 :
    ParseFloat hugeNumeral = none ∧
      parseLabInput (rangeLine "尿酸".toList hugeNumeral "umol/L".toList "208".toList
        "428".toList) = ([], none) ∧
      parseLabInput "尿酸 428.00000000000000001 umol/L (参考范围: 208-428)".toList =
        ([{ Parameter := "尿酸".toList, Value := 428, Unit := "umol/L".toList,
            ReferenceMin := 208, ReferenceMax := 428, Status := statusNormal }], none) := by
  decide

/-- C3 (amended): a line `name value unit (参考范围: low-high)`, where the name has no
ASCII digit and no line feed and is not blank, the value and the two bounds are decimal
numerals within the `float64` range (`ParseFloat` reads them as `v`, `lo`, `hi`, the
nearest `float64`) and the unit is made of the characters `[a-zA-Z/μ]`, yields exactly one
measurement: the trimmed name, `v`, the unit, `lo`, `hi`, and the status `determineStatus`
gives for these numbers: 偏高 if `hi` is nonzero and below `v`, else 偏低 if `lo` is
nonzero and above `v`, else 正常. -/
theorem parseLabInput_rangeLine (name value unit low high : Str) (v lo hi : ℚ)
    (hnd : ∀ c ∈ name, isDigit c = false) (hnl : ∀ c ∈ name, c ≠ '\n')
    (hns : TrimSpace name ≠ [])
    (hv : ParseFloat value = some v)
    (hunit : unit ≠ []) (hunitc : ∀ c ∈ unit, reUnit c = true)
    (hl : ParseFloat low = some lo) (hh : ParseFloat high = some hi) :
    parseLabInput (rangeLine name value unit low high) =
        ([{ Parameter := TrimSpace name, Value := v, Unit := unit, ReferenceMin := lo,
            ReferenceMax := hi,
            Status := determineStatus
              { Parameter := TrimSpace name, Value := v, Unit := unit, ReferenceMin := lo,
                ReferenceMax := hi, Status := [] } }], none) ∧
      determineStatus
          { Parameter := TrimSpace name, Value := v, Unit := unit, ReferenceMin := lo,
            ReferenceMax := hi, Status := [] } =
        (if hi ≠ 0 ∧ hi < v then statusHigh
         else if lo ≠ 0 ∧ v < lo then statusLow
         else statusNormal) := by
  have hlo : 0 < lo ↔ lo ≠ 0 :=
    ⟨fun h => ne_of_gt h, fun h => lt_of_le_of_ne (parseFloat_nonneg hl) (Ne.symm h)⟩
  have hhi : 0 < hi ↔ hi ≠ 0 :=
    ⟨fun h => ne_of_gt h, fun h => lt_of_le_of_ne (parseFloat_nonneg hh) (Ne.symm h)⟩
  refine ⟨?_, ?_⟩
  · exact parseLabInput_single _ _
      (no_newline_rangeLine name value unit low high v lo hi hnl hv hunitc hl hh)
      (parseLine_rangeLine name value unit low high v lo hi hnd hns hv hunit hunitc hl hh)
  · simp only [determineStatus, gt_iff_lt, hlo, hhi]

/-- The amended C3 at the line of the specification, `尿酸 520 umol/L (参考范围:
208-428)`: the value 520, the range 208-428 and the status 偏高; and at the same line
with white space around the name. -/
theorem parseLabInput_rangeLine_witness :
    rangeLine "尿酸".toList "520".toList "umol/L".toList "208".toList "428".toList =
        "尿酸 520 umol/L (参考范围: 208-428)".toList ∧
      parseLabInput "尿酸 520 umol/L (参考范围: 208-428)".toList =
        ([{ Parameter := "尿酸".toList, Value := 520, Unit := "umol/L".toList,
            ReferenceMin := 208, ReferenceMax := 428, Status := statusHigh }], none) ∧
      parseLabInput "\t尿酸  520 umol/L (参考范围: 208-428)".toList =
        ([{ Parameter := "尿酸".toList, Value := 520, Unit := "umol/L".toList,
            ReferenceMin := 208, ReferenceMax := 428, Status := statusHigh }], none) := by
  have h1 := parseLabInput_rangeLine "尿酸".toList "520".toList "umol/L".toList
    "208".toList "428".toList 520 208 428 (by decide) (by decide) (by decide) (by decide)
    (by decide) (by decide) (by decide) (by decide)
  have h2 := parseLabInput_rangeLine "\t尿酸 ".toList "520".toList "umol/L".toList
    "208".toList "428".toList 520 208 428 (by decide) (by decide) (by decide) (by decide)
    (by decide) (by decide) (by decide) (by decide)
  have e : (if (428 : ℚ) ≠ 0 ∧ (428 : ℚ) < 520 then statusHigh
      else if (208 : ℚ) ≠ 0 ∧ (520 : ℚ) < 208 then statusLow else statusNormal) =
      statusHigh := by decide
  rw [h1.2, e] at h1
  rw [h2.2, e] at h2
  exact ⟨by decide, h1.1, h2.1⟩

set_option maxRecDepth 100000 in
/-- C6 (counterexample): a bound beyond the `float64` range is not stored, the upper
bound stays 0; and a value beyond the range makes the line disappear. -/
theorem parseLabInput_boundLine_float64 :
    parseLabInput (boundLine "C反应蛋白".toList "5".toList "mg/L".toList hugeNumeral) =
        ([{ Parameter := "C反应蛋白".toList, Value := 5, Unit := "mg/L".toList,
            ReferenceMin := 0, ReferenceMax := 0, Status := statusNormal }], none) ∧
      parseLabInput (boundLine "C反应蛋白".toList hugeNumeral "mg/L".toList "3.0".toList) =
        ([], none) := by
  decide

/-- C6 (amended): a line `name value unit (<X)`, with the name, the unit and the numerals
as for the range line (`v` and `x` the `float64` of the value and of `X`), yields one
measurement with upper bound `x` and lower bound 0.  Its status is 偏高 iff `x` is
positive and the value is strictly greater than `x`, and 正常 otherwise; so a value equal
to the bound is 正常. -/
theorem parseLabInput_boundLine (name value unit bound : Str) (v x : ℚ)
    (hnd : ∀ c ∈ name, isDigit c = false) (hnl : ∀ c ∈ name, c ≠ '\n')
    (hns : TrimSpace name ≠ [])
    (hv : ParseFloat value = some v)
    (hunit : unit ≠ []) (hunitc : ∀ c ∈ unit, reUnit c = true)
    (hx : ParseFloat bound = some x) :
    parseLabInput (boundLine name value unit bound) =
        ([{ Parameter := TrimSpace name, Value := v, Unit := unit, ReferenceMin := 0,
            ReferenceMax := x,
            Status := if 0 < x ∧ x < v then statusHigh else statusNormal }], none) ∧
      (v = x → (if 0 < x ∧ x < v then statusHigh else statusNormal) = statusNormal) := by
  refine ⟨?_, ?_⟩
  · rw [parseLabInput_single _ _
      (no_newline_boundLine name value unit bound v x hnl hv hunitc hx)
      (parseLine_boundLine name value unit bound v x hnd hns hv hunit hunitc hx)]
    simp [determineStatus]
  · intro hvx
    simp [hvx]

/-- The amended C6 at `C反应蛋白 5 mg/L (<3.0)`, which is 偏高, and at
`C反应蛋白 3.0 mg/L (<3.0)`, where the value equals the bound. -/
theorem parseLabInput_boundLine_witness :
    boundLine "C反应蛋白".toList "5".toList "mg/L".toList "3.0".toList =
        "C反应蛋白 5 mg/L (<3.0)".toList ∧
      parseLabInput "C反应蛋白 5 mg/L (<3.0)".toList =
        ([{ Parameter := "C反应蛋白".toList, Value := 5, Unit := "mg/L".toList,
            ReferenceMin := 0, ReferenceMax := 3, Status := statusHigh }], none) ∧
      parseLabInput "C反应蛋白 3.0 mg/L (<3.0)".toList =
        ([{ Parameter := "C反应蛋白".toList, Value := 3, Unit := "mg/L".toList,
            ReferenceMin := 0, ReferenceMax := 3, Status := statusNormal }], none) := by
  have h1 := (parseLabInput_boundLine "C反应蛋白".toList "5".toList "mg/L".toList
    "3.0".toList 5 3 (by decide) (by decide) (by decide) (by decide) (by decide)
    (by decide) (by decide)).1
  have h2 := parseLabInput_boundLine "C反应蛋白".toList "3.0".toList "mg/L".toList
    "3.0".toList 3 3 (by decide) (by decide) (by decide) (by decide) (by decide)
    (by decide) (by decide)
  have e1 : (if (0 : ℚ) < 3 ∧ (3 : ℚ) < 5 then statusHigh else statusNormal) =
      statusHigh := by decide
  rw [e1] at h1
  rw [h2.2 rfl] at h2
  exact ⟨by decide, h1, h2.1⟩

/-- C12 (amended): the label is required for a range.  A line `name value unit
(low-high)` without it, with the name, the unit and the numerals as for the labelled
line, yields one measurement whose two bounds are 0 (unset) and whose status is 正常,
whatever the value: the bound alternative matches `(low` with an empty comparison
sign. -/
theorem parseLabInput_plainRangeLine (name value unit low high : Str) (v lo hi : ℚ)
    (hnd : ∀ c ∈ name, isDigit c = false) (hnl : ∀ c ∈ name, c ≠ '\n')
    (hns : TrimSpace name ≠ [])
    (hv : ParseFloat value = some v)
    (hunit : unit ≠ []) (hunitc : ∀ c ∈ unit, reUnit c = true)
    (hl : ParseFloat low = some lo) (hh : ParseFloat high = some hi) :
    parseLabInput (plainRangeLine name value unit low high) =
      ([{ Parameter := TrimSpace name, Value := v, Unit := unit, ReferenceMin := 0,
          ReferenceMax := 0, Status := statusNormal }], none) :=
  parseLabInput_single _ _
    (no_newline_plainRangeLine name value unit low high v lo hi hnl hv hunitc hl hh)
    (parseLine_plainRangeLine name value unit low high v lo hnd hns hv hunit hunitc hl)

/-- The amended C12 at `肌酐 135 umol/L (54-106)`. -/
theorem parseLabInput_plainRangeLine_witness :
    plainRangeLine "肌酐".toList "135".toList "umol/L".toList "54".toList "106".toList =
        "肌酐 135 umol/L (54-106)".toList ∧
      parseLabInput
          (plainRangeLine "肌酐".toList "135".toList "umol/L".toList "54".toList
            "106".toList) =
        ([{ Parameter := "肌酐".toList, Value := 135, Unit := "umol/L".toList,
            ReferenceMin := 0, ReferenceMax := 0, Status := statusNormal }], none) :=
  ⟨by decide,
    parseLabInput_plainRangeLine "肌酐".toList "135".toList "umol/L".toList "54".toList
      "106".toList 135 54 106 (by decide) (by decide) (by decide) (by decide) (by decide)
      (by decide) (by decide) (by decide)⟩

/-- C13 (amended): a line `name value unit (>X)`, with the name, the unit and the
numerals as for the range line (`v` and `x` the `float64` of the value and of `X`),
yields one measurement with lower bound `x` and upper bound 999999.  Its status is 偏高
iff the value exceeds 999999; otherwise 偏低 iff `x` is nonzero and the value is below
`x`; otherwise 正常.  So it is never 偏高 for a value up to 999999. -/
theorem parseLabInput_lowerBoundLine (name value unit bound : Str) (v x : ℚ)
    (hnd : ∀ c ∈ name, isDigit c = false) (hnl : ∀ c ∈ name, c ≠ '\n')
    (hns : TrimSpace name ≠ [])
    (hv : ParseFloat value = some v)
    (hunit : unit ≠ []) (hunitc : ∀ c ∈ unit, reUnit c = true)
    (hx : ParseFloat bound = some x) :
    parseLabInput (lowerBoundLine name value unit bound) =
        ([{ Parameter := TrimSpace name, Value := v, Unit := unit, ReferenceMin := x,
            ReferenceMax := 999999,
            Status := if 999999 < v then statusHigh
              else if x ≠ 0 ∧ v < x then statusLow
              else statusNormal }], none) ∧
      (v ≤ 999999 →
        (if 999999 < v then statusHigh else if x ≠ 0 ∧ v < x then statusLow
          else statusNormal) ≠ statusHigh) := by
  have hpos : 0 < x ↔ x ≠ 0 :=
    ⟨fun h => ne_of_gt h, fun h => lt_of_le_of_ne (parseFloat_nonneg hx) (Ne.symm h)⟩
  have h9 : (0 : ℚ) < 999999 := by norm_num
  have hlh : statusLow ≠ statusHigh := by decide
  have hnh : statusNormal ≠ statusHigh := by decide
  refine ⟨?_, ?_⟩
  · rw [parseLabInput_single _ _
      (no_newline_lowerBoundLine name value unit bound v x hnl hv hunitc hx)
      (parseLine_lowerBoundLine name value unit bound v x hnd hns hv hunit hunitc hx)]
    simp only [determineStatus, gt_iff_lt, h9, true_and, hpos]
  · intro hle
    rw [if_neg (not_lt.2 hle)]
    split_ifs
    · exact hlh
    · exact hnh

/-- The amended C13 at `GFR 50 ml/min (>90)`: lower bound 90, status 偏低. -/
theorem parseLabInput_lowerBoundLine_witness :
    lowerBoundLine "GFR".toList "50".toList "ml/min".toList "90".toList =
        "GFR 50 ml/min (>90)".toList ∧
      parseLabInput "GFR 50 ml/min (>90)".toList =
        ([{ Parameter := "GFR".toList, Value := 50, Unit := "ml/min".toList,
            ReferenceMin := 90, ReferenceMax := 999999, Status := statusLow }], none) := by
  have h := (parseLabInput_lowerBoundLine "GFR".toList "50".toList "ml/min".toList
    "90".toList 50 90 (by decide) (by decide) (by decide) (by decide) (by decide)
    (by decide) (by decide)).1
  have e : (if (999999 : ℚ) < 50 then statusHigh
      else if (90 : ℚ) ≠ 0 ∧ (50 : ℚ) < 90 then statusLow else statusNormal) =
      statusLow := by decide
  rw [e] at h
  exact ⟨by decide, h⟩

/-! ## The status rule, the decision table at the native alias, the category lists -/

theorem parseReference_bounds_nonneg (ms : List Str) (r : LabResult)
    (hmin : 0 ≤ r.ReferenceMin) (hmax : 0 ≤ r.ReferenceMax) :
    0 ≤ (parseReference ms r).ReferenceMin ∧ 0 ≤ (parseReference ms r).ReferenceMax := by
  unfold parseReference
  split_ifs with h1 h2
  · split
    · next lo hi hl hh => exact ⟨parseFloat_nonneg hl, parseFloat_nonneg hh⟩
    · exact ⟨hmin, hmax⟩
  · split
    · next x hx =>
      simp only
      split_ifs
      · exact ⟨le_refl 0, parseFloat_nonneg hx⟩
      · exact ⟨parseFloat_nonneg hx, by norm_num⟩
      · exact ⟨hmin, hmax⟩
    · exact ⟨hmin, hmax⟩
  · exact ⟨hmin, hmax⟩

/-- At its one call (line 136) `determineStatus` receives bounds that are not negative:
each is 0, the constant 999999 or the `float64` of an unsigned numeral. -/
theorem parseLine_bounds_nonneg (l : Str) (r : LabResult) (h : parseLine l = some r) :
    0 ≤ r.ReferenceMin ∧ 0 ≤ r.ReferenceMax := by
  unfold parseLine at h
  simp only at h
  split_ifs at h
  split at h
  · exact absurd h (by simp)
  · next value hv =>
    simp only [Option.some.injEq] at h
    rw [← h]
    exact parseReference_bounds_nonneg _ _ (le_refl 0) (le_refl 0)

theorem parseLabInput_bounds_nonneg (input : Str) :
    ∀ r ∈ (parseLabInput input).1, 0 ≤ r.ReferenceMin ∧ 0 ≤ r.ReferenceMax := by
  intro r hr
  simp only [parseLabInput, List.mem_filterMap] at hr
  obtain ⟨l, _, hl⟩ := hr
  exact parseLine_bounds_nonneg l r hl

/-- C2: on bounds that are not negative (all that `parseLabInput` passes), the status is
偏高 if the upper bound is nonzero and the value exceeds it; otherwise 偏低 if the lower
bound is nonzero and the value is below it; otherwise 正常.  A lower bound of 0 never
gives 偏低, and 偏高 wins whenever its condition holds, also when the value is below the
lower bound. -/
theorem determineStatus_nonzero_bounds (r : LabResult)
    (hmin : 0 ≤ r.ReferenceMin) (hmax : 0 ≤ r.ReferenceMax) :
    determineStatus r =
        (if r.ReferenceMax ≠ 0 ∧ r.Value > r.ReferenceMax then statusHigh
         else if r.ReferenceMin ≠ 0 ∧ r.Value < r.ReferenceMin then statusLow
         else statusNormal) ∧
      (r.ReferenceMin = 0 → determineStatus r ≠ statusLow) ∧
      (r.ReferenceMax ≠ 0 → r.Value > r.ReferenceMax → determineStatus r = statusHigh) := by
  have e1 : r.ReferenceMax > 0 ↔ r.ReferenceMax ≠ 0 :=
    ⟨fun h => ne_of_gt h, fun h => lt_of_le_of_ne hmax (Ne.symm h)⟩
  have e2 : r.ReferenceMin > 0 ↔ r.ReferenceMin ≠ 0 :=
    ⟨fun h => ne_of_gt h, fun h => lt_of_le_of_ne hmin (Ne.symm h)⟩
  have hhl : statusHigh ≠ statusLow := by decide
  have hnl : statusNormal ≠ statusLow := by decide
  refine ⟨?_, ?_, ?_⟩
  · simp only [determineStatus, e1, e2]
  · intro h0
    unfold determineStatus
    split_ifs with h1 h2
    · exact hhl
    · rw [h0] at h2
      exact absurd h2.1 (lt_irrefl 0)
    · exact hnl
  · intro h1 h2
    unfold determineStatus
    rw [if_pos ⟨e1.2 h1, h2⟩]

/-- C2 at three records: the value 520 against the range 208-428 is 偏高; a value above
the upper bound and below the lower bound is 偏高; the value 50 with no lower bound is
not 偏低. -/
theorem determineStatus_nonzero_bounds_witness :
    determineStatus
        { Parameter := [], Value := 520, Unit := [], ReferenceMin := 208,
          ReferenceMax := 428, Status := [] } = statusHigh ∧
      determineStatus
        { Parameter := [], Value := 520, Unit := [], ReferenceMin := 600,
          ReferenceMax := 428, Status := [] } = statusHigh ∧
      determineStatus
        { Parameter := [], Value := 50, Unit := [], ReferenceMin := 0,
          ReferenceMax := 428, Status := [] } ≠ statusLow :=
  ⟨(determineStatus_nonzero_bounds
      { Parameter := [], Value := 520, Unit := [], ReferenceMin := 208,
        ReferenceMax := 428, Status := [] } (by decide) (by decide)).2.2
      (by decide) (by decide),
    (determineStatus_nonzero_bounds
      { Parameter := [], Value := 520, Unit := [], ReferenceMin := 600,
        ReferenceMax := 428, Status := [] } (by decide) (by decide)).2.2
      (by decide) (by decide),
    (determineStatus_nonzero_bounds
      { Parameter := [], Value := 50, Unit := [], ReferenceMin := 0,
        ReferenceMax := 428, Status := [] } (by decide) (by decide)).2.1 rfl⟩

/-- C1: a report with a high uric-acid measurement and a glomerular-filtration-rate
measurement of status 偏低 under the native name 肾小球滤过率 has uricAcidHigh, no
inflammation and an abnormal kidney marker, the row 中风险 of the table, and is
classified 低风险; with a high C-reactive protein added, the row 高风险, it is 中风险.
Under the name `GFR` the same two reports are 中风险 and 高风险. -/
theorem analyzeGoutRisk_table_native_gfr :
    (parseLabInput
        "尿酸 520 umol/L (参考范围: 208-428)\n肾小球滤过率 50 ml/min (>90)".toList).1 =
        [{ Parameter := "尿酸".toList, Value := 520, Unit := "umol/L".toList,
           ReferenceMin := 208, ReferenceMax := 428, Status := statusHigh },
         { Parameter := "肾小球滤过率".toList, Value := 50, Unit := "ml/min".toList,
           ReferenceMin := 90, ReferenceMax := 999999, Status := statusLow }] ∧
      UricAcidHigh
        [{ Parameter := "尿酸".toList, Value := 520, Unit := "umol/L".toList,
           ReferenceMin := 208, ReferenceMax := 428, Status := statusHigh },
         { Parameter := "肾小球滤过率".toList, Value := 50, Unit := "ml/min".toList,
           ReferenceMin := 90, ReferenceMax := 999999, Status := statusLow }] ∧
      ¬ InflammationPresent
        [{ Parameter := "尿酸".toList, Value := 520, Unit := "umol/L".toList,
           ReferenceMin := 208, ReferenceMax := 428, Status := statusHigh },
         { Parameter := "肾小球滤过率".toList, Value := 50, Unit := "ml/min".toList,
           ReferenceMin := 90, ReferenceMax := 999999, Status := statusLow }] ∧
      KidneyAbnormal
        [{ Parameter := "尿酸".toList, Value := 520, Unit := "umol/L".toList,
           ReferenceMin := 208, ReferenceMax := 428, Status := statusHigh },
         { Parameter := "肾小球滤过率".toList, Value := 50, Unit := "ml/min".toList,
           ReferenceMin := 90, ReferenceMax := 999999, Status := statusLow }] ∧
      (analyzeGoutRisk
        [{ Parameter := "尿酸".toList, Value := 520, Unit := "umol/L".toList,
           ReferenceMin := 208, ReferenceMax := 428, Status := statusHigh },
         { Parameter := "肾小球滤过率".toList, Value := 50, Unit := "ml/min".toList,
           ReferenceMin := 90, ReferenceMax := 999999, Status := statusLow }]).RiskLevel =
        riskLow ∧
      (analyzeGoutRisk
        [{ Parameter := "尿酸".toList, Value := 520, Unit := "umol/L".toList,
           ReferenceMin := 208, ReferenceMax := 428, Status := statusHigh },
         { Parameter := "GFR".toList, Value := 50, Unit := "ml/min".toList,
           ReferenceMin := 90, ReferenceMax := 999999, Status := statusLow }]).RiskLevel =
        riskMedium ∧
      (analyzeGoutRisk
        [{ Parameter := "尿酸".toList, Value := 520, Unit := "umol/L".toList,
           ReferenceMin := 208, ReferenceMax := 428, Status := statusHigh },
         { Parameter := "C反应蛋白".toList, Value := 15, Unit := "mg/L".toList,
           ReferenceMin := 0, ReferenceMax := 3, Status := statusHigh },
         { Parameter := "肾小球滤过率".toList, Value := 50, Unit := "ml/min".toList,
           ReferenceMin := 90, ReferenceMax := 999999, Status := statusLow }]).RiskLevel =
        riskMedium ∧
      (analyzeGoutRisk
        [{ Parameter := "尿酸".toList, Value := 520, Unit := "umol/L".toList,
           ReferenceMin := 208, ReferenceMax := 428, Status := statusHigh },
         { Parameter := "C反应蛋白".toList, Value := 15, Unit := "mg/L".toList,
           ReferenceMin := 0, ReferenceMax := 3, Status := statusHigh },
         { Parameter := "GFR".toList, Value := 50, Unit := "ml/min".toList,
           ReferenceMin := 90, ReferenceMax := 999999, Status := statusLow }]).RiskLevel =
        riskHigh := by
  decide

/-- C10: the inflammatory markers of the result are exactly the measurements, in input
order and unchanged, whose lower-cased name contains one of c反应蛋白, crp, 血沉, esr,
白细胞, wbc, and the kidney markers those for 肌酐, creatinine, 尿素, urea, 肾小球, gfr.  A
measurement whose lower-cased name contains none of the twelve is in neither list; one
named `CRP` alone is the one inflammatory marker, one named `eGFR` alone the one kidney
marker. -/
theorem category_lists (ms : List LabResult) :
    (analyzeGoutRisk ms).InflammatoryMarkers =
        ms.filter (fun m =>
          Contains (ToLower m.Parameter) "c反应蛋白".toList ||
          Contains (ToLower m.Parameter) "crp".toList ||
          Contains (ToLower m.Parameter) "血沉".toList ||
          Contains (ToLower m.Parameter) "esr".toList ||
          Contains (ToLower m.Parameter) "白细胞".toList ||
          Contains (ToLower m.Parameter) "wbc".toList) ∧
      (analyzeGoutRisk ms).KidneyFunction =
        ms.filter (fun m =>
          Contains (ToLower m.Parameter) "肌酐".toList ||
          Contains (ToLower m.Parameter) "creatinine".toList ||
          Contains (ToLower m.Parameter) "尿素".toList ||
          Contains (ToLower m.Parameter) "urea".toList ||
          Contains (ToLower m.Parameter) "肾小球".toList ||
          Contains (ToLower m.Parameter) "gfr".toList) ∧
      (∀ m : LabResult,
        (∀ k ∈ ["c反应蛋白".toList, "crp".toList, "血沉".toList, "esr".toList,
            "白细胞".toList, "wbc".toList, "肌酐".toList, "creatinine".toList,
            "尿素".toList, "urea".toList, "肾小球".toList, "gfr".toList],
          Contains (ToLower m.Parameter) k = false) →
        m ∉ (analyzeGoutRisk ms).InflammatoryMarkers ∧
          m ∉ (analyzeGoutRisk ms).KidneyFunction) ∧
      (∀ m : LabResult, m.Parameter = "CRP".toList →
        (analyzeGoutRisk [m]).InflammatoryMarkers = [m] ∧
          (analyzeGoutRisk [m]).KidneyFunction = []) ∧
      (∀ m : LabResult, m.Parameter = "eGFR".toList →
        (analyzeGoutRisk [m]).InflammatoryMarkers = [] ∧
          (analyzeGoutRisk [m]).KidneyFunction = [m]) := by
  have hi : (analyzeGoutRisk ms).InflammatoryMarkers =
      ms.filter (fun m => isInflammatory (ToLower m.Parameter)) := by
    have h := foldl_inflammatoryMarkers ms initState
    simp only [analyzeGoutRisk, assessRisk]
    split_ifs <;> simpa [initState] using h
  have hk : (analyzeGoutRisk ms).KidneyFunction =
      ms.filter (fun m => isKidney (ToLower m.Parameter)) := by
    have h := foldl_kidneyFunction ms initState
    simp only [analyzeGoutRisk, assessRisk]
    split_ifs <;> simpa [initState] using h
  have hi1 : ∀ m : LabResult, (analyzeGoutRisk [m]).InflammatoryMarkers =
      [m].filter (fun m => isInflammatory (ToLower m.Parameter)) := by
    intro m
    have h := foldl_inflammatoryMarkers [m] initState
    simp only [analyzeGoutRisk, assessRisk]
    split_ifs <;> simpa [initState] using h
  have hk1 : ∀ m : LabResult, (analyzeGoutRisk [m]).KidneyFunction =
      [m].filter (fun m => isKidney (ToLower m.Parameter)) := by
    intro m
    have h := foldl_kidneyFunction [m] initState
    simp only [analyzeGoutRisk, assessRisk]
    split_ifs <;> simpa [initState] using h
  refine ⟨hi, hk, ?_, ?_, ?_⟩
  · intro m hm
    rw [hi, hk]
    simp only [List.mem_cons, List.mem_singleton, forall_eq_or_imp, forall_eq,
      List.not_mem_nil, false_imp_iff, implies_true, and_true] at hm
    obtain ⟨h1, h2, h3, h4, h5, h6, h7, h8, h9, h10, h11, h12⟩ := hm
    constructor
    · intro hmem
      have := (List.mem_filter.1 hmem).2
      unfold isInflammatory at this
      rw [h1, h2, h3, h4, h5, h6] at this
      exact absurd this (by decide)
    · intro hmem
      have := (List.mem_filter.1 hmem).2
      unfold isKidney at this
      rw [h7, h8, h9, h10, h11, h12] at this
      exact absurd this (by decide)
  · intro m hm
    have e1 : isInflammatory (ToLower m.Parameter) = true := by rw [hm]; decide
    have e2 : isKidney (ToLower m.Parameter) = false := by rw [hm]; decide
    rw [hi1, hk1]
    simp [e1, e2]
  · intro m hm
    have e1 : isInflammatory (ToLower m.Parameter) = false := by rw [hm]; decide
    have e2 : isKidney (ToLower m.Parameter) = true := by rw [hm]; decide
    rw [hi1, hk1]
    simp [e1, e2]

/-- C10 at a report of three measurements, 尿酸, CRP and eGFR: the uric-acid measurement
is in neither list, and each of the other two is in its own list only. -/
theorem category_lists_witness :
    ({ Parameter := "尿酸".toList, Value := 520, Unit := "umol/L".toList,
       ReferenceMin := 208, ReferenceMax := 428, Status := statusHigh } : LabResult) ∉
        (analyzeGoutRisk
          [{ Parameter := "尿酸".toList, Value := 520, Unit := "umol/L".toList,
             ReferenceMin := 208, ReferenceMax := 428, Status := statusHigh },
           { Parameter := "CRP".toList, Value := 15, Unit := "mg/L".toList,
             ReferenceMin := 0, ReferenceMax := 3, Status := statusHigh },
           { Parameter := "eGFR".toList, Value := 50, Unit := "ml/min".toList,
             ReferenceMin := 90, ReferenceMax := 999999,
             Status := statusLow }]).InflammatoryMarkers ∧
      ({ Parameter := "尿酸".toList, Value := 520, Unit := "umol/L".toList,
         ReferenceMin := 208, ReferenceMax := 428, Status := statusHigh } : LabResult) ∉
        (analyzeGoutRisk
          [{ Parameter := "尿酸".toList, Value := 520, Unit := "umol/L".toList,
             ReferenceMin := 208, ReferenceMax := 428, Status := statusHigh },
           { Parameter := "CRP".toList, Value := 15, Unit := "mg/L".toList,
             ReferenceMin := 0, ReferenceMax := 3, Status := statusHigh },
           { Parameter := "eGFR".toList, Value := 50, Unit := "ml/min".toList,
             ReferenceMin := 90, ReferenceMax := 999999,
             Status := statusLow }]).KidneyFunction :=
  (category_lists
    [{ Parameter := "尿酸".toList, Value := 520, Unit := "umol/L".toList,
       ReferenceMin := 208, ReferenceMax := 428, Status := statusHigh },
     { Parameter := "CRP".toList, Value := 15, Unit := "mg/L".toList,
       ReferenceMin := 0, ReferenceMax := 3, Status := statusHigh },
     { Parameter := "eGFR".toList, Value := 50, Unit := "ml/min".toList,
       ReferenceMin := 90, ReferenceMax := 999999, Status := statusLow }]).2.2.1
    { Parameter := "尿酸".toList, Value := 520, Unit := "umol/L".toList,
      ReferenceMin := 208, ReferenceMax := 428, Status := statusHigh } (by decide)

end GoutAnalysis
